import Mathlib

/-!
# Chat relay (`shnoor-chat-server/index.js`): store model and handlers

The relational store is modelled as four tables held as lists of rows, in
insertion order, together with the four id sequences that Postgres keeps for
the serial primary keys.  Every handler of `index.js` is a function from a
store (and its request) to the new store and what the handler sends back.
Timestamps (`CURRENT_TIMESTAMP`) are read from a `now` argument.

Conventions taken from the source:

* JavaScript truthiness is explicit: an id is falsy when it is `null` or `0`,
  a string is falsy when it is `null`/`undefined` or empty.
* A query without `ORDER BY` returns rows in table order; `rows[0]` is the
  first of them.
* `ORDER BY` is a stable insertion sort on the key.
* The foreign key `messages.attachment_file_id REFERENCES files(file_id)`
  added by `runMigrations` is enforced on insert.
* Postgres rejects a text parameter that holds U+0000: the query throws and
  the handler's `catch` answers 500 (`send_message` only logs).  No stored
  text holds U+0000, so for an external identity the throw is modelled where
  the lookup finds no row.
* `files.file_id` is `SERIAL` and `messages.attachment_file_id` is `INT`: a
  file id above 2147483647 makes the query throw, and the sequence issues no
  value above it.
* `res.setHeader` throws on a value with a character outside tab,
  U+0020..U+007E and U+0080..U+00FF.
* Ids are issued by sequences that start at 1, so a stored id is never `0`;
  the handlers test a resolved id with `!id`, which also rejects `0`.  The
  theorems about a resolved identity carry this as the hypothesis `i ≠ 0`,
  and `reachable_schemaOk` shows that it holds in every reachable state.
-/

namespace ChatServer

/-! ## Tables -/

/-- Row of `users`. -/
structure User where
  user_id : Nat
  firebase_uid : String
  email : String
  full_name : String
  role : String
  status : String
  fcm_token : Option String
deriving DecidableEq, Repr

/-- Row of `chats`. -/
structure Chat where
  chat_id : Nat
  student_id : Nat
  instructor_id : Nat
  created_at : Nat
deriving DecidableEq, Repr

/-- Row of `messages` (with the columns added by `runMigrations`). -/
structure Message where
  message_id : Nat
  chat_id : Nat
  sender_id : Nat
  receiver_id : Nat
  text : String
  is_read : Bool
  attachment_file_id : Option Nat
  created_at : Nat
deriving DecidableEq, Repr

/-- Row of `files`; `data` is the byte content. -/
structure File where
  file_id : Nat
  filename : String
  mime_type : String
  data : List Nat
  created_at : Nat
deriving DecidableEq, Repr

/-- The persistent store: the four tables and the next value of each id sequence. -/
structure Store where
  users : List User
  chats : List Chat
  messages : List Message
  files : List File
  user_id_seq : Nat
  chat_id_seq : Nat
  message_id_seq : Nat
  file_id_seq : Nat
deriving DecidableEq, Repr

/-- The store before any request: empty tables, sequences at their first value. -/
def Store.empty : Store :=
  { users := [], chats := [], messages := [], files := [],
    user_id_seq := 1, chat_id_seq := 1, message_id_seq := 1, file_id_seq := 1 }

/-! ## Responses and socket effects -/

/-- One row of the `GET /api/chats` result. -/
structure ChatSummary where
  chat_id : Nat
  created_at : Nat
  recipient_name : String
  recipient_uid : String
  unread_count : Nat
deriving DecidableEq, Repr

/-- One record of the `GET /api/messages/:chatId` result. -/
structure MessageRecord where
  message_id : Nat
  text : String
  created_at : Nat
  is_read : Bool
  sender_uid : String
  attachment_file_id : Option Nat
  attachment_name : Option String
  attachment_type : Option String
  attachment_url : Option String
deriving DecidableEq, Repr

/-- Response bodies of the HTTP handlers. -/
inductive Body where
  | text (s : String)
  | error (msg : String)
  | userRef (user_id : Nat) (role : String)
  | success
  | fileRef (file_id : Nat)
  | bytes (data : List Nat)
  | chatList (rows : List ChatSummary)
  | chatRef (chat_id : Nat) (isNew : Bool)
  | messageList (rows : List MessageRecord)
deriving DecidableEq, Repr

/-- An HTTP response: status, the headers set by the handler, body. -/
structure Response where
  status : Nat
  headers : List (String × String)
  body : Body
deriving DecidableEq, Repr

/-- Body of `res.json(...)` / `res.send(...)` with the default status 200. -/
def Response.ok (b : Body) : Response := { status := 200, headers := [], body := b }

/-- Body sent with an explicit status, `res.status(code)...`. -/
def Response.fail (code : Nat) (b : Body) : Response := { status := code, headers := [], body := b }

/-- The object broadcast by `send_message`. -/
structure MessagePayload where
  message_id : Nat
  text : String
  created_at : Nat
  attachment_file_id : Option Nat
  attachment_name : Option String
  attachment_type : Option String
  attachment_url : Option String
  chat_id : Nat
  sender_uid : String
  receiver_uid : String
  client_side_id : Option String
deriving DecidableEq, Repr

/-- A socket room: the room of a chat id or the room of an external identity. -/
inductive Channel where
  | chat (chat_id : Nat)
  | user (firebase_uid : String)
deriving DecidableEq, Repr

/-- One `io.to(channel).emit(event, payload)`. -/
structure Emission where
  channel : Channel
  event : String
  payload : MessagePayload
deriving DecidableEq, Repr

/-- One `admin.messaging().send(...)`. -/
structure PushNotification where
  token : String
  title : String
  body : String
  data_chat_id : String
  data_sender_uid : String
deriving DecidableEq, Repr

/-- Everything `send_message` does besides writing the store. -/
structure Effects where
  emitted : List Emission
  pushed : List PushNotification
deriving DecidableEq, Repr

/-- No emission and no push. -/
def Effects.none : Effects := { emitted := [], pushed := [] }

/-! ## Requests -/

/-- The `req.file` of multer: `originalname`, `mimetype`, `buffer`. -/
structure UploadedFile where
  originalname : String
  mimetype : String
  buffer : List Nat
deriving DecidableEq, Repr

/-- The `data` object of the `send_message` event. -/
structure SendMessageData where
  chat_id : Nat
  text : Option String
  sender_firebase_uid : String
  receiver_firebase_uid : String
  attachment_file_id : Option Nat
  client_side_id : Option String
deriving DecidableEq, Repr

/-! ## Helpers -/

/-- The multer limit `fileSize: 50 * 1024 * 1024`. -/
def fileSizeLimit : Nat := 50 * 1024 * 1024

/-- The base of the download URL built by the handlers. -/
def fileUrlBase : String := "http://localhost:3001/api/files/"

/-- The download URL of a file id. -/
def fileUrl (file_id : Nat) : String := fileUrlBase ++ toString file_id

/-- The largest value of a Postgres `INT` or `SERIAL` column. -/
def int4Max : Nat := 2147483647

/-- A string that Postgres accepts as a text parameter: it holds no U+0000. -/
def pgText (t : String) : Bool := t.data.all (fun c => c.toNat ≠ 0)

/-- The message of the Postgres error for a text parameter that holds U+0000. -/
def pgNulError : String := "invalid byte sequence for encoding \"UTF8\": 0x00"

/-- A header value that `res.setHeader` accepts: every character is a tab or lies in
U+0020..U+007E or U+0080..U+00FF. -/
def validHeaderValue (v : String) : Bool :=
  v.data.all (fun c =>
    c.toNat = 9 ∨ (32 ≤ c.toNat ∧ c.toNat ≤ 126) ∨ (128 ≤ c.toNat ∧ c.toNat ≤ 255))

/-- JavaScript `x || null` on an optional id: `0` and `null` both give `null`. -/
def idOrNull : Option Nat → Option Nat
  | some (n + 1) => some (n + 1)
  | _ => none

/-- JavaScript `x || d` on an optional string: `null` and the empty string give `d`. -/
def strOr (x : Option String) (d : String) : String :=
  match x with
  | some t => if t = "" then d else t
  | none => d

/-- `getPostgresId`: the `user_id` of the first row with this `firebase_uid`, or `null`. -/
def getPostgresId (s : Store) (firebaseUid : String) : Option Nat :=
  match s.users.filter (fun u => u.firebase_uid = firebaseUid) with
  | [] => none
  | u :: _ => some u.user_id

/-! ## HTTP handlers -/

/-- `POST /api/sync-user`: insert, or on conflict on `firebase_uid` overwrite
`email` and `full_name`; returns `user_id, role` of the written row.  A parameter that
holds U+0000 makes the query throw, and the `catch` answers 500 with the error message. -/
def syncUser (s : Store) (firebase_uid email full_name role : String) : Store × Response :=
  if pgText firebase_uid && pgText email && pgText full_name && pgText role then
    match s.users.filter (fun u => u.firebase_uid = firebase_uid) with
    | [] =>
      let row : User :=
        { user_id := s.user_id_seq, firebase_uid := firebase_uid, email := email,
          full_name := full_name, role := role, status := "active", fcm_token := none }
      ({ s with users := s.users ++ [row], user_id_seq := s.user_id_seq + 1 },
        Response.ok (.userRef row.user_id row.role))
    | r :: _ =>
      ({ s with users := s.users.map (fun u =>
            if u.firebase_uid = firebase_uid then
              { u with email := email, full_name := full_name }
            else u) },
        Response.ok (.userRef r.user_id r.role))
  else (s, Response.fail 500 (.text pgNulError))

/-- `POST /api/save-fcm-token`.  The lookup throws for an identity that holds U+0000 and the
update throws for a token that holds U+0000; the `catch` answers 500. -/
def saveFcmToken (s : Store) (firebase_uid : String) (fcm_token : Option String) :
    Store × Response :=
  match getPostgresId s firebase_uid with
  | none =>
    if pgText firebase_uid then (s, Response.fail 404 (.error "User not found"))
    else (s, Response.fail 500 (.text pgNulError))
  | some 0 => (s, Response.fail 404 (.error "User not found"))
  | some userId =>
    if fcm_token.all pgText then
      ({ s with users := s.users.map (fun u =>
            if u.user_id = userId then { u with fcm_token := fcm_token } else u) },
        Response.ok .success)
    else (s, Response.fail 500 (.text pgNulError))

/-- `POST /api/upload` behind `upload.single(file)`: a payload above the multer
limit is rejected by the middleware before the handler runs; otherwise the
handler stores the payload as a new `files` row.  The insert throws when the filename or
the MIME type holds U+0000 and when the `file_id` sequence is exhausted; the `catch`
answers 500. -/
def upload (s : Store) (file : Option UploadedFile) (now : Nat) : Store × Response :=
  match file with
  | none => (s, Response.fail 400 (.text "No file uploaded"))
  | some f =>
    if fileSizeLimit < f.buffer.length then
      (s, Response.fail 500 (.text "MulterError: File too large"))
    else if pgText f.originalname && pgText f.mimetype && decide (s.file_id_seq ≤ int4Max) then
      let row : File :=
        { file_id := s.file_id_seq, filename := f.originalname, mime_type := f.mimetype,
          data := f.buffer, created_at := now }
      ({ s with files := s.files ++ [row], file_id_seq := s.file_id_seq + 1 },
        Response.ok (.fileRef row.file_id))
    else (s, Response.fail 500 (.text "File upload failed"))

/-- `GET /api/files/:id`.  An id out of the range of `file_id` makes the query throw, and
`res.setHeader` throws on a MIME type or a disposition value it does not accept; the `catch`
answers 500 (of that response only status and body are modelled).  For a buffer,
`res.send` sets `application/octet-stream` when the `Content-Type` set so far is empty. -/
def download (s : Store) (id : Nat) : Response :=
  if int4Max < id then Response.fail 500 (.text "Error serving file")
  else
    match s.files.filter (fun f => f.file_id = id) with
    | [] => Response.fail 404 (.text "File not found")
    | f :: _ =>
      if validHeaderValue f.mime_type &&
          validHeaderValue ("inline; filename=\"" ++ f.filename ++ "\"") then
        { status := 200,
          headers :=
            [("Content-Type",
                if f.mime_type = "" then "application/octet-stream" else f.mime_type),
             ("Content-Disposition", "inline; filename=\"" ++ f.filename ++ "\"")],
          body := .bytes f.data }
      else Response.fail 500 (.text "Error serving file")

/-- The sub-select of `GET /api/chats`: unread messages of a chat addressed to a user. -/
def unreadCount (s : Store) (chat_id userId : Nat) : Nat :=
  (s.messages.filter (fun m =>
    m.chat_id = chat_id ∧ m.receiver_id = userId ∧ m.is_read = false)).length

/-- `chats c JOIN users s ON c.student_id = s.user_id JOIN users i ON c.instructor_id = i.user_id`. -/
def chatJoin (s : Store) : List (Chat × User × User) :=
  s.chats.flatMap (fun c =>
    (s.users.filter (fun st => c.student_id = st.user_id)).flatMap (fun st =>
      (s.users.filter (fun i => c.instructor_id = i.user_id)).map (fun i => (c, st, i))))

/-- The select list of `GET /api/chats` for one joined row. -/
def chatSummary (s : Store) (userId : Nat) (row : Chat × User × User) : ChatSummary :=
  { chat_id := row.1.chat_id,
    created_at := row.1.created_at,
    recipient_name := if row.1.student_id = userId then row.2.2.full_name else row.2.1.full_name,
    recipient_uid :=
      if row.1.student_id = userId then row.2.2.firebase_uid else row.2.1.firebase_uid,
    unread_count := unreadCount s row.1.chat_id userId }

/-- The query of `GET /api/chats` with `$1 = userId`. -/
def chatRows (s : Store) (userId : Nat) : List ChatSummary :=
  (((chatJoin s).filter (fun row =>
      row.1.student_id = userId ∨ row.1.instructor_id = userId)).map
    (chatSummary s userId)).insertionSort (fun a b => b.created_at ≤ a.created_at)

/-- `GET /api/chats?firebase_uid=`.  The lookup throws for an identity that holds U+0000;
the `catch` answers 500. -/
def listChats (s : Store) (firebase_uid : String) : Response :=
  match getPostgresId s firebase_uid with
  | none =>
    if pgText firebase_uid then Response.fail 404 (.error "User not found")
    else Response.fail 500 (.text "Server Error")
  | some 0 => Response.fail 404 (.error "User not found")
  | some userId => Response.ok (.chatList (chatRows s userId))

/-- `POST /api/chats`: look the ordered pair up, insert when absent.  Both lookups run before
the check, and either throws for an identity that holds U+0000; the `catch` answers 500. -/
def createChat (s : Store) (student_firebase_uid instructor_firebase_uid : String) (now : Nat) :
    Store × Response :=
  match getPostgresId s student_firebase_uid, getPostgresId s instructor_firebase_uid with
  | some studentId, some instructorId =>
    if studentId = 0 ∨ instructorId = 0 then
      (s, Response.fail 404 (.text "Users not found"))
    else
      match s.chats.filter (fun c =>
          c.student_id = studentId ∧ c.instructor_id = instructorId) with
      | c :: _ => (s, Response.ok (.chatRef c.chat_id false))
      | [] =>
        let row : Chat :=
          { chat_id := s.chat_id_seq, student_id := studentId,
            instructor_id := instructorId, created_at := now }
        ({ s with chats := s.chats ++ [row], chat_id_seq := s.chat_id_seq + 1 },
          Response.ok (.chatRef row.chat_id true))
  | _, _ =>
    if pgText student_firebase_uid && pgText instructor_firebase_uid then
      (s, Response.fail 404 (.text "Users not found"))
    else (s, Response.fail 500 (.text pgNulError))

/-- `messages m LEFT JOIN files f ON m.attachment_file_id = f.file_id`, for one message. -/
def leftJoinFiles (s : Store) (m : Message) : List (Option File) :=
  match s.files.filter (fun f => m.attachment_file_id = some f.file_id) with
  | [] => [none]
  | fs => fs.map some

/-- `messages m JOIN users u ON m.sender_id = u.user_id LEFT JOIN files f ...`. -/
def messageJoin (s : Store) : List (Message × User × Option File) :=
  s.messages.flatMap (fun m =>
    (s.users.filter (fun u => m.sender_id = u.user_id)).flatMap (fun u =>
      (leftJoinFiles s m).map (fun f => (m, u, f))))

/-- The select list of `GET /api/messages/:chatId` with the `attachment_url` added by the
handler (`msg.attachment_file_id ? url : null`). -/
def messageRecord (row : Message × User × Option File) : MessageRecord :=
  { message_id := row.1.message_id,
    text := row.1.text,
    created_at := row.1.created_at,
    is_read := row.1.is_read,
    sender_uid := row.2.1.firebase_uid,
    attachment_file_id := row.1.attachment_file_id,
    attachment_name := row.2.2.map (fun f => f.filename),
    attachment_type := row.2.2.map (fun f => f.mime_type),
    attachment_url := (idOrNull row.1.attachment_file_id).map fileUrl }

/-- The records of `GET /api/messages/:chatId`. -/
def messageRows (s : Store) (chatId : Nat) : List MessageRecord :=
  ((((messageJoin s).filter (fun row => row.1.chat_id = chatId)).insertionSort
    (fun a b => a.1.created_at ≤ b.1.created_at))).map messageRecord

/-- `GET /api/messages/:chatId`. -/
def getMessages (s : Store) (chatId : Nat) : Response :=
  Response.ok (.messageList (messageRows s chatId))

/-- The `UPDATE` of `PUT /api/messages/mark-read` with `$1 = chat_id`, `$2 = userId`. -/
def markReadRows (ms : List Message) (chat_id userId : Nat) : List Message :=
  ms.map (fun m =>
    if m.chat_id = chat_id ∧ m.receiver_id = userId ∧ m.is_read = false then
      { m with is_read := true }
    else m)

/-- `PUT /api/messages/mark-read`; `res.sendStatus(200)` sends the body `OK`.  The lookup
throws for an identity that holds U+0000; the `catch` answers 500. -/
def markRead (s : Store) (chat_id : Nat) (user_firebase_uid : String) : Store × Response :=
  match getPostgresId s user_firebase_uid with
  | none =>
    if pgText user_firebase_uid then (s, Response.fail 400 (.text "User invalid"))
    else (s, Response.fail 500 (.text pgNulError))
  | some 0 => (s, Response.fail 400 (.text "User invalid"))
  | some userId =>
    ({ s with messages := markReadRows s.messages chat_id userId }, Response.ok (.text "OK"))

/-! ## The socket handler -/

/-- The `fileData` object of `send_message`: name, type and URL of the attachment when an
attachment id was given and its row exists. -/
def fileData (s : Store) (attachment_file_id : Option Nat) :
    Option String × Option String × Option String :=
  match idOrNull attachment_file_id with
  | none => (none, none, none)
  | some a =>
    match s.files.filter (fun f => f.file_id = a) with
    | [] => (none, none, none)
    | f :: _ => (some f.filename, some f.mime_type, some (fileUrl a))

/-- The push notification of `send_message`, if the receiver row has a truthy token.
The store is the one after the message insert (only `users` is read). -/
def pushFor (s : Store) (data : SendMessageData) (senderId receiverId : Nat) :
    List PushNotification :=
  match ((s.users.filter (fun u => u.user_id = receiverId)).head?).bind (fun u => u.fcm_token) with
  | none => []
  | some fcmToken =>
    if fcmToken = "" then []
    else
      let messageBody :=
        strOr data.text
          (match idOrNull data.attachment_file_id with
           | some _ => "Sent an attachment"
           | none => "New Message")
      let senderName :=
        strOr ((s.users.filter (fun u => u.user_id = senderId)).head?.map (fun u => u.full_name))
          "New Message"
      [{ token := fcmToken, title := senderName, body := messageBody,
         data_chat_id := toString data.chat_id, data_sender_uid := data.sender_firebase_uid }]

/-- The `send_message` handler.  An unresolved sender or receiver returns at once (a lookup
that throws is caught and logged, with the same outcome); a text that holds U+0000 or an
attachment id that references no `files` row makes the insert throw, which the handler
catches and logs. -/
def sendMessage (s : Store) (data : SendMessageData) (now : Nat) : Store × Effects :=
  match getPostgresId s data.sender_firebase_uid, getPostgresId s data.receiver_firebase_uid with
  | some senderId, some receiverId =>
    if senderId = 0 ∨ receiverId = 0 then (s, Effects.none)
    else
      let attachment := idOrNull data.attachment_file_id
      if pgText (strOr data.text "") &&
          attachment.all (fun a => s.files.any (fun f => f.file_id = a)) then
        let saved : Message :=
          { message_id := s.message_id_seq, chat_id := data.chat_id, sender_id := senderId,
            receiver_id := receiverId, text := strOr data.text "", is_read := false,
            attachment_file_id := attachment, created_at := now }
        let fd := fileData s data.attachment_file_id
        let messagePayload : MessagePayload :=
          { message_id := saved.message_id, text := saved.text, created_at := saved.created_at,
            attachment_file_id := saved.attachment_file_id,
            attachment_name := fd.1, attachment_type := fd.2.1, attachment_url := fd.2.2,
            chat_id := data.chat_id,
            sender_uid := data.sender_firebase_uid,
            receiver_uid := data.receiver_firebase_uid,
            client_side_id := data.client_side_id }
        ({ s with messages := s.messages ++ [saved], message_id_seq := s.message_id_seq + 1 },
          { emitted := [{ channel := .chat data.chat_id, event := "receive_message",
                          payload := messagePayload },
                        { channel := .user data.receiver_firebase_uid,
                          event := "new_notification", payload := messagePayload }],
            pushed := pushFor s data senderId receiverId })
      else (s, Effects.none)
  | _, _ => (s, Effects.none)

/-! ## Maintenance -/

/-- `fixReadStatus` of `fix_read.js`: `UPDATE messages SET is_read = TRUE`. -/
def fixReadStatus (s : Store) : Store :=
  { s with messages := s.messages.map (fun m => { m with is_read := true }) }

/-! ## The server as a transition system -/

/-- One request to the server. -/
inductive Op where
  | syncUser (firebase_uid email full_name role : String)
  | saveFcmToken (firebase_uid : String) (fcm_token : Option String)
  | upload (file : Option UploadedFile) (now : Nat)
  | download (id : Nat)
  | listChats (firebase_uid : String)
  | createChat (student_firebase_uid instructor_firebase_uid : String) (now : Nat)
  | getMessages (chatId : Nat)
  | markRead (chat_id : Nat) (user_firebase_uid : String)
  | sendMessage (data : SendMessageData) (now : Nat)
deriving DecidableEq, Repr

/-- The store after one request. -/
def step (s : Store) : Op → Store
  | .syncUser u e n r => (syncUser s u e n r).1
  | .saveFcmToken u t => (saveFcmToken s u t).1
  | .upload f now => (upload s f now).1
  | .download _ => s
  | .listChats _ => s
  | .createChat a b now => (createChat s a b now).1
  | .getMessages _ => s
  | .markRead c u => (markRead s c u).1
  | .sendMessage d now => (sendMessage s d now).1

/-- The store after a sequence of requests, handled one after the other. -/
def run (s : Store) (ops : List Op) : Store := ops.foldl step s

/-- States the server can be in, starting from the empty store. -/
inductive Reachable : Store → Prop where
  | init : Reachable Store.empty
  | next (s : Store) (op : Op) : Reachable s → Reachable (step s op)

/-! ## Schema constraints and invariants -/

/-- At most one `chats` row per ordered (student, instructor) pair. -/
def ChatUnique (s : Store) : Prop :=
  (s.chats.map (fun c => (c.student_id, c.instructor_id))).Nodup

instance (s : Store) : Decidable (ChatUnique s) := by
  unfold ChatUnique
  infer_instance

/-- The key constraints of the schema that the handlers rely on: unique external identity,
primary keys of `users` and `files`, ids issued by sequences that start at 1. -/
structure SchemaOk (s : Store) : Prop where
  uid_unique : (s.users.map (fun u => u.firebase_uid)).Nodup
  user_pk : (s.users.map (fun u => u.user_id)).Nodup
  user_ids : ∀ u ∈ s.users, 0 < u.user_id ∧ u.user_id < s.user_id_seq
  user_seq : 0 < s.user_id_seq
  file_pk : (s.files.map (fun f => f.file_id)).Nodup
  file_ids : ∀ f ∈ s.files, 0 < f.file_id ∧ f.file_id < s.file_id_seq
  file_seq : 0 < s.file_id_seq

/-- The references between tables that the joins of the read handlers rely on: the sender of
every message and both participants of every chat are user rows, and an attachment reference
is null or the non-zero id of a file row. -/
structure RefsOk (s : Store) : Prop where
  msg_sender : ∀ m ∈ s.messages, ∃ u ∈ s.users, u.user_id = m.sender_id
  msg_attachment : ∀ m ∈ s.messages, m.attachment_file_id = none ∨
    ∃ f ∈ s.files, f.file_id ≠ 0 ∧ m.attachment_file_id = some f.file_id
  chat_student : ∀ c ∈ s.chats, ∃ u ∈ s.users, u.user_id = c.student_id
  chat_instructor : ∀ c ∈ s.chats, ∃ u ∈ s.users, u.user_id = c.instructor_id

/-! ## A sample store -/

/-- A small store used to instantiate the theorems: two users, one chat between them, two
messages of that chat (one read, one unread) and one file. -/
def sampleStore : Store :=
  { users :=
      [{ user_id := 1, firebase_uid := "u1", email := "a@x.org", full_name := "Asha",
         role := "student", status := "active", fcm_token := none },
       { user_id := 2, firebase_uid := "u2", email := "b@x.org", full_name := "Bela",
         role := "instructor", status := "active", fcm_token := some "tok2" }],
    chats := [{ chat_id := 1, student_id := 1, instructor_id := 2, created_at := 10 }],
    messages :=
      [{ message_id := 1, chat_id := 1, sender_id := 1, receiver_id := 2, text := "hi",
         is_read := true, attachment_file_id := none, created_at := 11 },
       { message_id := 2, chat_id := 1, sender_id := 1, receiver_id := 2, text := "",
         is_read := false, attachment_file_id := some 1, created_at := 12 }],
    files := [{ file_id := 1, filename := "a.txt", mime_type := "text/plain",
                data := [104, 105], created_at := 9 }],
    user_id_seq := 3, chat_id_seq := 2, message_id_seq := 3, file_id_seq := 2 }

/-- A payload one byte above the multer limit. -/
def oversizePayload : UploadedFile :=
  { originalname := "big.bin", mimetype := "application/octet-stream",
    buffer := List.replicate (fileSizeLimit + 1) 0 }

/-- A payload within the limit. -/
def smallPayload : UploadedFile :=
  { originalname := "notes.pdf", mimetype := "application/pdf", buffer := [37, 80, 68, 70] }

/-- A `send_message` from `u1` to `u2` in chat 1 that attaches the stored file 1. -/
def sendWithFile : SendMessageData :=
  { chat_id := 1, text := none, sender_firebase_uid := "u1", receiver_firebase_uid := "u2",
    attachment_file_id := some 1, client_side_id := some "c-1" }

/-- A `send_message` from `u1` to `u2` in chat 1 whose attachment id names no stored file. -/
def sendDangling : SendMessageData :=
  { chat_id := 1, text := some "see file", sender_firebase_uid := "u1",
    receiver_firebase_uid := "u2", attachment_file_id := some 7, client_side_id := none }

/-- A `send_message` whose sender was never synced. -/
def sendUnknown : SendMessageData :=
  { chat_id := 1, text := some "hello", sender_firebase_uid := "nobody",
    receiver_firebase_uid := "u2", attachment_file_id := none, client_side_id := none }

/-- A `send_message` from `u1` to `u2` in chat 1 with a text and no attachment. -/
def sendHello : SendMessageData :=
  { chat_id := 1, text := some "hello", sender_firebase_uid := "u1",
    receiver_firebase_uid := "u2", attachment_file_id := none, client_side_id := some "c-2" }

/-- A `send_message` from `u1` to `u2` in chat 1 with neither text nor attachment. -/
def sendEmpty : SendMessageData :=
  { chat_id := 1, text := none, sender_firebase_uid := "u1", receiver_firebase_uid := "u2",
    attachment_file_id := none, client_side_id := none }

/-- The sample store after `u1` synced an empty display name. -/
def namelessStore : Store := (syncUser sampleStore "u1" "a@x.org" "" "student").1

/-- The sample store with a third user `u3`, who takes part in no chat. -/
def outsiderStore : Store := (syncUser sampleStore "u3" "c@x.org" "Cyd" "student").1

/-- The user `u3` writes into chat 1, the chat of `u1` and `u2`, addressed to `u2`. -/
def sendOutsider : SendMessageData :=
  { chat_id := 1, text := some "psst", sender_firebase_uid := "u3",
    receiver_firebase_uid := "u2", attachment_file_id := none, client_side_id := none }

/-- Requests that lead from the empty store to a message with neither text nor attachment. -/
def emptyTextOps : List Op :=
  [.syncUser "u1" "a@x.org" "Asha" "student", .syncUser "u2" "b@x.org" "Bela" "instructor",
   .sendMessage sendEmpty 5]

/-- Requests that lead from the empty store to a message that attaches an uploaded file. -/
def attachOps : List Op :=
  [.syncUser "u1" "a@x.org" "Asha" "student", .syncUser "u2" "b@x.org" "Bela" "instructor",
   .upload (some smallPayload) 3, .sendMessage sendWithFile 5]

/-- A text that holds U+0000. -/
def nulText : String := "a\x00b"

/-- A `send_message` from `u1` to `u2` in chat 1 whose text holds U+0000. -/
def sendNul : SendMessageData :=
  { chat_id := 1, text := some nulText, sender_firebase_uid := "u1",
    receiver_firebase_uid := "u2", attachment_file_id := none, client_side_id := none }

/-- A small payload whose filename has a character above U+00FF. -/
def wideNamePayload : UploadedFile :=
  { originalname := "日.txt", mimetype := "text/plain", buffer := [104, 105] }

/-! ## Lemmas on keyed tables -/

/-- Under a unique key, the rows selected by one key value are at most one. -/
theorem filter_key_of_nodup {α β : Type} [DecidableEq β] (k : α → β) (a : β) :
    ∀ l : List α, (l.map k).Nodup →
      l.filter (fun x => k x = a) = [] ∨ ∃ x, l.filter (fun x => k x = a) = [x]
  | [], _ => Or.inl rfl
  | x :: l, h => by
    rw [List.map_cons, List.nodup_cons] at h
    by_cases hx : k x = a
    · right
      refine ⟨x, ?_⟩
      have hnil : l.filter (fun y => k y = a) = [] := by
        rw [List.filter_eq_nil_iff]
        intro y hy hya
        have hya2 : k y = a := by simpa using hya
        exact h.1 (by rw [hx, ← hya2]; exact List.mem_map_of_mem k hy)
      simp [List.filter_cons, hx, hnil]
    · have := filter_key_of_nodup k a l h.2
      simpa [List.filter_cons, hx] using this

/-- Under a unique key, a row of the table is the only row selected by its key. -/
theorem filter_key_eq_singleton {α β : Type} [DecidableEq β] (k : α → β) (l : List α)
    (h : (l.map k).Nodup) (r : α) (hr : r ∈ l) :
    l.filter (fun x => k x = k r) = [r] := by
  have hmem : r ∈ l.filter (fun x => k x = k r) := by simp [List.mem_filter, hr]
  rcases filter_key_of_nodup k (k r) l h with h0 | ⟨x, hx⟩
  · rw [h0] at hmem; simp at hmem
  · rw [hx] at hmem ⊢
    simp at hmem
    rw [hmem]

/-! ## User sync -/

/-- The update of `sync-user` keeps the external identity of every row. -/
theorem filter_uid_map_update (us : List User) (u e n : String) :
    (us.map (fun x =>
        if x.firebase_uid = u then { x with email := e, full_name := n } else x)).filter
        (fun x => x.firebase_uid = u)
      = (us.filter (fun x => x.firebase_uid = u)).map
          (fun x => { x with email := e, full_name := n }) := by
  induction us with
  | nil => rfl
  | cons x us ih =>
    by_cases hx : x.firebase_uid = u
    · simp [List.filter_cons, hx, ih]
    · simp [List.filter_cons, hx, ih]

/-- The `sync-user` handler when no parameter holds U+0000: the upsert itself. -/
theorem syncUser_valid (s : Store) (u e n r : String)
    (hu : pgText u = true) (he : pgText e = true) (hn : pgText n = true)
    (hr : pgText r = true) :
    syncUser s u e n r =
      match s.users.filter (fun x => x.firebase_uid = u) with
      | [] =>
        ({ s with
            users := s.users ++ [{ user_id := s.user_id_seq, firebase_uid := u, email := e,
                                   full_name := n, role := r, status := "active",
                                   fcm_token := none }],
            user_id_seq := s.user_id_seq + 1 },
          Response.ok (.userRef s.user_id_seq r))
      | x :: _ =>
        ({ s with users := s.users.map (fun y =>
              if y.firebase_uid = u then { y with email := e, full_name := n } else y) },
          Response.ok (.userRef x.user_id x.role)) := by
  unfold syncUser
  simp only [hu, he, hn, hr, Bool.and_self, if_true]

/-- The `sync-user` handler when a parameter holds U+0000: status 500, nothing written. -/
theorem syncUser_invalid (s : Store) (u e n r : String)
    (h : (pgText u && pgText e && pgText n && pgText r) = false) :
    syncUser s u e n r = (s, Response.fail 500 (.text pgNulError)) := by
  unfold syncUser
  simp only [h, Bool.false_eq_true, if_false]

/-- One sync call without U+0000, on a table with at most one row for `u`, leaves exactly one
row for `u`, carrying the email and name of the call. -/
theorem syncUser_filter (s : Store) (u e n r : String)
    (hu : pgText u = true) (he : pgText e = true) (hn : pgText n = true)
    (hr : pgText r = true)
    (h : (s.users.filter (fun x => x.firebase_uid = u)).length ≤ 1) :
    ∃ row, (syncUser s u e n r).1.users.filter (fun x => x.firebase_uid = u) = [row] ∧
      row.email = e ∧ row.full_name = n := by
  rw [syncUser_valid s u e n r hu he hn hr]
  cases hf : s.users.filter (fun x => x.firebase_uid = u) with
  | nil =>
    simp only [List.filter_append, hf]
    simp
  | cons a rest =>
    rw [hf] at h
    have hrest : rest = [] := by
      cases rest with
      | nil => rfl
      | cons b t => simp at h
    subst hrest
    simp only [filter_uid_map_update, hf]
    simp

/-- C1, amended: on a users table with unique external identities, two sync calls for the
same external identity `u`, where `u` and the email, name and role of the second call hold
no U+0000, leave exactly one row with external identity `u`, and that row has the email and
display name of the second call (whatever the first call carried). -/
theorem syncUser_twice_single_row (s : Store) (u e1 n1 r1 e2 n2 r2 : String)
    (huniq : (s.users.map (fun x => x.firebase_uid)).Nodup)
    (hu : pgText u = true) (he : pgText e2 = true) (hn : pgText n2 = true)
    (hr : pgText r2 = true) :
    ∃ row, (syncUser (syncUser s u e1 n1 r1).1 u e2 n2 r2).1.users.filter
        (fun x => x.firebase_uid = u) = [row] ∧ row.email = e2 ∧ row.full_name = n2 := by
  have h0 : (s.users.filter (fun x => x.firebase_uid = u)).length ≤ 1 := by
    rcases filter_key_of_nodup (fun x : User => x.firebase_uid) u s.users huniq with h | ⟨x, h⟩
    · simp [h]
    · simp [h]
  have h1 : ((syncUser s u e1 n1 r1).1.users.filter
      (fun x => x.firebase_uid = u)).length ≤ 1 := by
    cases hv : (pgText u && pgText e1 && pgText n1 && pgText r1) with
    | false =>
      rw [syncUser_invalid s u e1 n1 r1 hv]
      exact h0
    | true =>
      simp only [Bool.and_eq_true] at hv
      obtain ⟨row1, hrow, -, -⟩ := syncUser_filter s u e1 n1 r1 hu hv.1.1.2 hv.1.2 hv.2 h0
      rw [hrow]
      simp
  exact syncUser_filter _ u e2 n2 r2 hu he hn hr h1

/-- C1, as stated, fails: after a first sync of `u3`, a second sync of `u3` whose email holds
U+0000 is answered 500 and the one row of `u3` keeps the email and name of the first call. -/
theorem syncUser_nul_email_rejected :
    (syncUser (syncUser sampleStore "u3" "c@x.org" "Cyd" "student").1
        "u3" nulText "Cy" "student").2.status = 500 ∧
    ((syncUser (syncUser sampleStore "u3" "c@x.org" "Cyd" "student").1
        "u3" nulText "Cy" "student").1.users.filter
          (fun x => x.firebase_uid = "u3")).map (fun x => (x.email, x.full_name))
      = [("c@x.org", "Cyd")] := by
  decide

/-- C1 at the sample store: a new identity synced twice. -/
theorem syncUser_twice_single_row_witness :
    (sampleStore.users.map (fun x => x.firebase_uid)).Nodup ∧
    ∃ row, (syncUser (syncUser sampleStore "u3" "c@x.org" "Cyd" "student").1
        "u3" "c2@x.org" "Cy" "admin").1.users.filter
          (fun x => x.firebase_uid = "u3") = [row] ∧ row.email = "c2@x.org" ∧
          row.full_name = "Cy" :=
  ⟨by decide,
   syncUser_twice_single_row sampleStore "u3" "c@x.org" "Cyd" "student" "c2@x.org" "Cy" "admin"
     (by decide) (by decide) (by decide) (by decide) (by decide)⟩

/-- C2, amended: on a users table with unique external identities that holds a row `r` for
`u`, a sync call for `u` whose parameters hold no U+0000, with any role, writes only `email`
and `full_name` of `r` (its `user_id`, `role`, `status` and every other row and table stay as
they were) and returns `r.user_id` with the stored `r.role`. -/
theorem syncUser_existing (s : Store) (u e n role : String) (r : User)
    (huniq : (s.users.map (fun x => x.firebase_uid)).Nodup)
    (hr : r ∈ s.users) (hu : r.firebase_uid = u)
    (hpu : pgText u = true) (hpe : pgText e = true) (hpn : pgText n = true)
    (hpr : pgText role = true) :
    syncUser s u e n role =
      ({ s with users := s.users.map (fun x =>
            if x = r then { r with email := e, full_name := n } else x) },
        Response.ok (.userRef r.user_id r.role)) := by
  subst hu
  have hf := filter_key_eq_singleton (fun x : User => x.firebase_uid) s.users huniq r hr
  rw [syncUser_valid s r.firebase_uid e n role hpu hpe hpn hpr]
  simp only [hf]
  have hmap : ∀ x ∈ s.users,
      (if x.firebase_uid = r.firebase_uid then { x with email := e, full_name := n } else x)
        = (if x = r then { r with email := e, full_name := n } else x) := by
    intro x hx
    by_cases hxr : x = r
    · subst hxr; simp
    · have : x.firebase_uid ≠ r.firebase_uid := by
        intro heq
        have hxm : x ∈ s.users.filter (fun y => y.firebase_uid = r.firebase_uid) := by
          simp [List.mem_filter, hx, heq]
        rw [hf] at hxm
        simp at hxm
        exact hxr hxm
      simp [this, hxr]
  rw [List.map_congr_left hmap]

/-- C2 at the sample store: the instructor `u2` synced with the role `student` keeps the role
`instructor`, which is also the role returned. -/
theorem syncUser_existing_witness :
    (syncUser sampleStore "u2" "new@x.org" "Bel" "student").2
        = Response.ok (.userRef 2 "instructor") ∧
    (syncUser sampleStore "u2" "new@x.org" "Bel" "student").1.users =
      [{ user_id := 1, firebase_uid := "u1", email := "a@x.org", full_name := "Asha",
         role := "student", status := "active", fcm_token := none },
       { user_id := 2, firebase_uid := "u2", email := "new@x.org", full_name := "Bel",
         role := "instructor", status := "active", fcm_token := some "tok2" }] := by
  have h := syncUser_existing sampleStore "u2" "new@x.org" "Bel" "student"
    { user_id := 2, firebase_uid := "u2", email := "b@x.org", full_name := "Bela",
      role := "instructor", status := "active", fcm_token := some "tok2" }
    (by decide) (by decide) rfl (by decide) (by decide) (by decide) (by decide)
  rw [h]
  exact ⟨rfl, by decide⟩

/-- C2, as stated, fails: a sync call for the existing `u2` whose email holds U+0000 is
answered 500, returns no identity and role, and does not overwrite the email or the name. -/
theorem syncUser_existing_nul_rejected :
    (∃ r ∈ sampleStore.users, r.firebase_uid = "u2") ∧
    syncUser sampleStore "u2" nulText "Bel" "student"
      = (sampleStore, Response.fail 500 (.text pgNulError)) := by
  decide

/-! ## Conversation list -/

/-- Every row of the conversation list is the summary of a joined chat row. -/
theorem mem_chatRows (s : Store) (userId : Nat) (r : ChatSummary) (h : r ∈ chatRows s userId) :
    ∃ row ∈ chatJoin s, (row.1.student_id = userId ∨ row.1.instructor_id = userId) ∧
      r = chatSummary s userId row := by
  unfold chatRows at h
  rw [(List.perm_insertionSort _ _).mem_iff] at h
  obtain ⟨row, hrow, rfl⟩ := List.mem_map.1 h
  have h2 := List.mem_filter.1 hrow
  exact ⟨row, h2.1, by simpa using h2.2, rfl⟩

/-- C3: for a known user `u` with internal identity `i` (a key, hence non-zero),
list-conversations answers with a list of chats, and the `unread_count` of each listed chat is
the number of messages of that chat with receiver `i` and `is_read = false`. -/
theorem listChats_unread_count (s : Store) (u : String) (i : Nat)
    (hres : getPostgresId s u = some i) (hi : i ≠ 0) :
    ∃ rows, listChats s u = Response.ok (.chatList rows) ∧
      ∀ r ∈ rows, r.unread_count =
        (s.messages.filter (fun m =>
          m.chat_id = r.chat_id ∧ m.receiver_id = i ∧ m.is_read = false)).length := by
  refine ⟨chatRows s i, ?_, ?_⟩
  · unfold listChats
    rw [hres]
    cases i with
    | zero => exact absurd rfl hi
    | succ k => rfl
  · intro r hr
    obtain ⟨row, -, -, rfl⟩ := mem_chatRows s i r hr
    rfl

/-- C3 at the sample store: user `u2` has one unread message in chat 1. -/
theorem listChats_unread_count_witness :
    getPostgresId sampleStore "u2" = some 2 ∧
    ∃ rows, listChats sampleStore "u2" = Response.ok (.chatList rows) ∧
      ∀ r ∈ rows, r.unread_count =
        (sampleStore.messages.filter (fun m =>
          m.chat_id = r.chat_id ∧ m.receiver_id = 2 ∧ m.is_read = false)).length :=
  ⟨by decide, listChats_unread_count sampleStore "u2" 2 (by decide) (by decide)⟩

/-! ## Mark read -/

/-- The mark-read update applied twice is the update applied once. -/
theorem markReadRows_idem (ms : List Message) (c i : Nat) :
    markReadRows (markReadRows ms c i) c i = markReadRows ms c i := by
  unfold markReadRows
  rw [List.map_map]
  apply List.map_congr_left
  intro m _
  by_cases h : m.chat_id = c ∧ m.receiver_id = i ∧ m.is_read = false
  · simp [h]
  · simp [h]

/-- The `mark-read` handler for an identity that resolves to a non-zero id. -/
theorem markRead_resolved (s : Store) (c : Nat) (u : String) (i : Nat)
    (hres : getPostgresId s u = some i) (hi : i ≠ 0) :
    markRead s c u =
      ({ s with messages := markReadRows s.messages c i }, Response.ok (.text "OK")) := by
  unfold markRead
  rw [hres]
  cases i with
  | zero => exact absurd rfl hi
  | succ k => rfl

/-- C4: mark-read is idempotent: a second `mark-read(c, u)` right after the first gives the
same store and the same response as the first. -/
theorem markRead_idempotent (s : Store) (c : Nat) (u : String) :
    markRead (markRead s c u).1 c u = markRead s c u := by
  unfold markRead
  cases h : getPostgresId s u with
  | none => by_cases hp : pgText u = true <;> simp [h, hp]
  | some i =>
    cases i with
    | zero => simp [h]
    | succ k =>
      have h2 : getPostgresId { s with messages := markReadRows s.messages c (k + 1) } u
          = some (k + 1) := h
      simp only [h2, markReadRows_idem]

/-- C5: when `u` resolves to the internal identity `i` (a key, hence non-zero),
`mark-read(c, u)` answers 200, leaves
users, chats and files as they were, and relates the messages row by row: only `is_read` can
differ, it is `true` for every message of chat `c` addressed to `i`, and every message of
another chat or for another receiver is unchanged. -/
theorem markRead_effect (s : Store) (c : Nat) (u : String) (i : Nat)
    (hres : getPostgresId s u = some i) (hi : i ≠ 0) :
    (markRead s c u).2.status = 200 ∧
    (markRead s c u).1.users = s.users ∧
    (markRead s c u).1.chats = s.chats ∧
    (markRead s c u).1.files = s.files ∧
    List.Forall₂ (fun m m2 =>
        m2 = { m with is_read := m2.is_read } ∧
        (m.chat_id = c ∧ m.receiver_id = i → m2.is_read = true) ∧
        (¬ (m.chat_id = c ∧ m.receiver_id = i) → m2 = m))
      s.messages (markRead s c u).1.messages := by
  rw [markRead_resolved s c u i hres hi]
  refine ⟨rfl, rfl, rfl, rfl, ?_⟩
  show List.Forall₂ _ s.messages (markReadRows s.messages c i)
  unfold markReadRows
  rw [List.forall₂_map_right_iff]
  apply List.forall₂_same.2
  intro m _
  by_cases h : m.chat_id = c ∧ m.receiver_id = i
  · cases m with
    | mk a b c2 d e f g t =>
      cases f <;> simp_all
  · have h2 : ¬ (m.chat_id = c ∧ m.receiver_id = i ∧ m.is_read = false) :=
      fun h3 => h ⟨h3.1, h3.2.1⟩
    simp [h, h2]

/-- C5 at the sample store: `u2` marks chat 1 read. -/
theorem markRead_effect_witness :
    getPostgresId sampleStore "u2" = some 2 ∧
    (markRead sampleStore 1 "u2").1.messages.map (fun m => m.is_read) = [true, true] ∧
    (markRead sampleStore 1 "u2").1.users = sampleStore.users :=
  ⟨by decide, by decide, (markRead_effect sampleStore 1 "u2" 2 (by decide) (by decide)).2.1⟩

/-! ## Identity resolution along requests -/

/-- Resolution reads only the users table. -/
theorem getPostgresId_congr (s t : Store) (h : t.users = s.users) (a : String) :
    getPostgresId t a = getPostgresId s a := by
  unfold getPostgresId
  rw [h]

/-- Resolution is unchanged by a rewrite of rows that keeps both keys. -/
theorem getPostgresId_map (s t : Store) (f : User → User)
    (hf : ∀ x, (f x).firebase_uid = x.firebase_uid ∧ (f x).user_id = x.user_id)
    (h : t.users = s.users.map f) (a : String) :
    getPostgresId t a = getPostgresId s a := by
  unfold getPostgresId
  rw [h]
  have hfm : (s.users.map f).filter (fun u => u.firebase_uid = a)
      = (s.users.filter (fun u => u.firebase_uid = a)).map f := by
    rw [List.filter_map]
    congr 1
    apply List.filter_congr
    intro x _
    simp [(hf x).1]
  rw [hfm]
  cases s.users.filter (fun u => u.firebase_uid = a) with
  | nil => rfl
  | cons x l => simp [(hf x).2]

/-- An identity that resolves still resolves, to the same id, after a row is appended. -/
theorem getPostgresId_append (s t : Store) (row : User) (h : t.users = s.users ++ [row])
    (a : String) (i : Nat) (hs : getPostgresId s a = some i) :
    getPostgresId t a = some i := by
  unfold getPostgresId at hs ⊢
  rw [h, List.filter_append]
  cases hf : s.users.filter (fun u => u.firebase_uid = a) with
  | nil => rw [hf] at hs; simp at hs
  | cons x l => rw [hf] at hs; simpa using hs

/-! ## What each handler writes -/

/-- `mark-read` changes at most the messages table. -/
theorem markRead_store (s : Store) (c : Nat) (u : String) :
    ∃ ms, (markRead s c u).1 = { s with messages := ms } := by
  unfold markRead
  split
  · split <;> exact ⟨s.messages, rfl⟩
  · exact ⟨s.messages, rfl⟩
  · exact ⟨_, rfl⟩

/-- `send_message` changes at most the messages table and its sequence. -/
theorem sendMessage_store (s : Store) (d : SendMessageData) (now : Nat) :
    ∃ ms k, (sendMessage s d now).1 = { s with messages := ms, message_id_seq := k } := by
  unfold sendMessage
  split
  · split
    · exact ⟨s.messages, s.message_id_seq, rfl⟩
    · simp only
      split
      · exact ⟨_, _, rfl⟩
      · exact ⟨s.messages, s.message_id_seq, rfl⟩
  · exact ⟨s.messages, s.message_id_seq, rfl⟩

/-- `create-or-get` changes at most the chats table and its sequence. -/
theorem createChat_store (s : Store) (a b : String) (now : Nat) :
    ∃ cs k, (createChat s a b now).1 = { s with chats := cs, chat_id_seq := k } := by
  unfold createChat
  split
  · split
    · exact ⟨s.chats, s.chat_id_seq, rfl⟩
    · split
      · exact ⟨s.chats, s.chat_id_seq, rfl⟩
      · exact ⟨_, _, rfl⟩
  · split <;> exact ⟨s.chats, s.chat_id_seq, rfl⟩

/-- `upload` changes nothing, or appends one file row that takes the next sequence value. -/
theorem upload_store (s : Store) (f : Option UploadedFile) (now : Nat) :
    (upload s f now).1 = s ∨
    ∃ row : File, row.file_id = s.file_id_seq ∧
      (upload s f now).1 =
        { s with files := s.files ++ [row], file_id_seq := s.file_id_seq + 1 } := by
  unfold upload
  split
  · exact Or.inl rfl
  · split
    · exact Or.inl rfl
    · split
      · exact Or.inr ⟨_, rfl, rfl⟩
      · exact Or.inl rfl

/-- `save-fcm-token` changes at most the users table, by a rewrite that keeps both keys. -/
theorem saveFcmToken_store (s : Store) (u : String) (t : Option String) :
    ∃ f : User → User, (∀ x, (f x).firebase_uid = x.firebase_uid ∧ (f x).user_id = x.user_id) ∧
      (saveFcmToken s u t).1 = { s with users := s.users.map f } := by
  unfold saveFcmToken
  cases getPostgresId s u with
  | none =>
    simp only
    split <;> exact ⟨id, fun _ => ⟨rfl, rfl⟩, by simp⟩
  | some i =>
    cases i with
    | zero => exact ⟨id, fun _ => ⟨rfl, rfl⟩, by simp⟩
    | succ k =>
      simp only
      split
      · refine ⟨fun x => if x.user_id = k + 1 then { x with fcm_token := t } else x, ?_, rfl⟩
        intro x
        by_cases hx : x.user_id = k + 1 <;> simp [hx]
      · exact ⟨id, fun _ => ⟨rfl, rfl⟩, by simp⟩

/-- `sync-user` rewrites user rows keeping both keys (or leaves them, on a parameter with
U+0000), or appends a row with a new external identity that takes the next sequence value. -/
theorem syncUser_store (s : Store) (u e n r : String) :
    (∃ f : User → User, (∀ x, (f x).firebase_uid = x.firebase_uid ∧ (f x).user_id = x.user_id) ∧
      (syncUser s u e n r).1 = { s with users := s.users.map f }) ∨
    (∃ row : User, row.user_id = s.user_id_seq ∧ row.firebase_uid = u ∧
      (∀ x ∈ s.users, x.firebase_uid ≠ u) ∧
      (syncUser s u e n r).1 =
        { s with users := s.users ++ [row], user_id_seq := s.user_id_seq + 1 }) := by
  cases hv : (pgText u && pgText e && pgText n && pgText r) with
  | false =>
    rw [syncUser_invalid s u e n r hv]
    exact Or.inl ⟨id, fun _ => ⟨rfl, rfl⟩, by simp⟩
  | true =>
    simp only [Bool.and_eq_true] at hv
    rw [syncUser_valid s u e n r hv.1.1.1 hv.1.1.2 hv.1.2 hv.2]
    cases hf : s.users.filter (fun x => x.firebase_uid = u) with
    | nil =>
      right
      refine ⟨_, rfl, rfl, ?_, rfl⟩
      rw [List.filter_eq_nil_iff] at hf
      intro x hx
      simpa using hf x hx
    | cons x l =>
      left
      refine ⟨fun x => if x.firebase_uid = u then { x with email := e, full_name := n } else x,
        ?_, rfl⟩
      intro x
      by_cases hx : x.firebase_uid = u <;> simp [hx]

/-- What `sync-user` does to the users table: it appends a row, rewrites rows in place, or
(on a parameter with U+0000) leaves it as it is. -/
theorem syncUser_users (s : Store) (u e n r : String) :
    (∃ row, (syncUser s u e n r).1.users = s.users ++ [row]) ∨
    (syncUser s u e n r).1.users = s.users.map (fun x =>
      if x.firebase_uid = u then { x with email := e, full_name := n } else x) ∨
    (syncUser s u e n r).1.users = s.users := by
  cases hv : (pgText u && pgText e && pgText n && pgText r) with
  | false =>
    rw [syncUser_invalid s u e n r hv]
    exact Or.inr (Or.inr rfl)
  | true =>
    simp only [Bool.and_eq_true] at hv
    rw [syncUser_valid s u e n r hv.1.1.1 hv.1.1.2 hv.1.2 hv.2]
    cases s.users.filter (fun x => x.firebase_uid = u) with
    | nil => exact Or.inl ⟨_, rfl⟩
    | cons x l => exact Or.inr (Or.inl rfl)

/-- What `save-fcm-token` does to the users table: a rewrite that keeps both keys. -/
theorem saveFcmToken_users (s : Store) (u : String) (t : Option String) :
    ∃ f : User → User, (∀ x, (f x).firebase_uid = x.firebase_uid ∧ (f x).user_id = x.user_id) ∧
      (saveFcmToken s u t).1.users = s.users.map f := by
  obtain ⟨f, hf, heq⟩ := saveFcmToken_store s u t
  exact ⟨f, hf, by rw [heq]⟩

/-- `upload` writes neither users, chats nor messages. -/
theorem upload_frame (s : Store) (f : Option UploadedFile) (now : Nat) :
    (upload s f now).1.users = s.users ∧ (upload s f now).1.chats = s.chats ∧
    (upload s f now).1.messages = s.messages := by
  rcases upload_store s f now with heq | ⟨row, -, heq⟩ <;> rw [heq] <;> exact ⟨rfl, rfl, rfl⟩

/-- `mark-read` writes neither users, chats nor files. -/
theorem markRead_frame (s : Store) (c : Nat) (u : String) :
    (markRead s c u).1.users = s.users ∧ (markRead s c u).1.chats = s.chats ∧
    (markRead s c u).1.files = s.files := by
  obtain ⟨ms, heq⟩ := markRead_store s c u
  rw [heq]
  exact ⟨rfl, rfl, rfl⟩

/-- `send_message` writes neither users, chats nor files. -/
theorem sendMessage_frame (s : Store) (d : SendMessageData) (now : Nat) :
    (sendMessage s d now).1.users = s.users ∧ (sendMessage s d now).1.chats = s.chats ∧
    (sendMessage s d now).1.files = s.files := by
  obtain ⟨ms, k, heq⟩ := sendMessage_store s d now
  rw [heq]
  exact ⟨rfl, rfl, rfl⟩

/-- `create-or-get` writes neither users, messages nor files. -/
theorem createChat_frame (s : Store) (a b : String) (now : Nat) :
    (createChat s a b now).1.users = s.users ∧ (createChat s a b now).1.messages = s.messages ∧
    (createChat s a b now).1.files = s.files := by
  obtain ⟨cs, k, heq⟩ := createChat_store s a b now
  rw [heq]
  exact ⟨rfl, rfl, rfl⟩

/-- `sync-user` writes neither chats, messages nor files. -/
theorem syncUser_frame (s : Store) (u e n r : String) :
    (syncUser s u e n r).1.chats = s.chats ∧ (syncUser s u e n r).1.messages = s.messages ∧
    (syncUser s u e n r).1.files = s.files := by
  rcases syncUser_store s u e n r with ⟨f, -, heq⟩ | ⟨row, -, -, -, heq⟩ <;> rw [heq] <;>
    exact ⟨rfl, rfl, rfl⟩

/-- `save-fcm-token` writes neither chats, messages nor files. -/
theorem saveFcmToken_frame (s : Store) (u : String) (t : Option String) :
    (saveFcmToken s u t).1.chats = s.chats ∧ (saveFcmToken s u t).1.messages = s.messages ∧
    (saveFcmToken s u t).1.files = s.files := by
  obtain ⟨f, -, heq⟩ := saveFcmToken_store s u t
  rw [heq]
  exact ⟨rfl, rfl, rfl⟩

/-- An identity that resolves keeps its internal identity after any request. -/
theorem getPostgresId_step (s : Store) (op : Op) (a : String) (i : Nat)
    (h : getPostgresId s a = some i) : getPostgresId (step s op) a = some i := by
  cases op with
  | syncUser u e n r =>
    rcases syncUser_users s u e n r with ⟨row, hrow⟩ | hmap | hsame
    · exact getPostgresId_append s _ row hrow a i h
    · rw [← h]
      refine getPostgresId_map s _ _ ?_ hmap a
      intro x
      by_cases hx : x.firebase_uid = u <;> simp [hx]
    · rw [← h]
      exact getPostgresId_congr s _ hsame a
  | saveFcmToken u t =>
    obtain ⟨f, hf, hmap⟩ := saveFcmToken_users s u t
    rw [← h]
    exact getPostgresId_map s _ f hf hmap a
  | upload f now => rw [← h]; exact getPostgresId_congr s _ (upload_frame s f now).1 a
  | download _ => exact h
  | listChats _ => exact h
  | createChat x y now => rw [← h]; exact getPostgresId_congr s _ (createChat_frame s x y now).1 a
  | getMessages _ => exact h
  | markRead c u => rw [← h]; exact getPostgresId_congr s _ (markRead_frame s c u).1 a
  | sendMessage d now => rw [← h]; exact getPostgresId_congr s _ (sendMessage_frame s d now).1 a

/-- What `create-or-get` does to the chats table: nothing, or it appends a row for a pair that
had no row. -/
theorem createChat_chats (s : Store) (a b : String) (now : Nat) :
    (createChat s a b now).1.chats = s.chats ∨
    ∃ row, (createChat s a b now).1.chats = s.chats ++ [row] ∧
      s.chats.filter (fun c =>
        c.student_id = row.student_id ∧ c.instructor_id = row.instructor_id) = [] := by
  unfold createChat
  split
  · split
    · exact Or.inl rfl
    · split
      · exact Or.inl rfl
      · rename_i hnil
        exact Or.inr ⟨_, rfl, hnil⟩
  · split <;> exact Or.inl rfl

/-- What one request does to the chats table: nothing, or one row appended for a pair that
had no row. -/
theorem step_chats (s : Store) (op : Op) :
    (step s op).chats = s.chats ∨
    ∃ row, (step s op).chats = s.chats ++ [row] ∧
      s.chats.filter (fun c =>
        c.student_id = row.student_id ∧ c.instructor_id = row.instructor_id) = [] := by
  cases op with
  | syncUser u e n r => exact Or.inl (syncUser_frame s u e n r).1
  | saveFcmToken u t => exact Or.inl (saveFcmToken_frame s u t).1
  | upload f now => exact Or.inl (upload_frame s f now).2.1
  | download _ => exact Or.inl rfl
  | listChats _ => exact Or.inl rfl
  | createChat x y now => exact createChat_chats s x y now
  | getMessages _ => exact Or.inl rfl
  | markRead c u => exact Or.inl (markRead_frame s c u).2.1
  | sendMessage d now => exact Or.inl (sendMessage_frame s d now).2.1


/-- The first chat row of an ordered pair stays the first one after any request. -/
theorem firstChat_step (s : Store) (op : Op) (a b : Nat) (c : Chat) (rest : List Chat)
    (h : s.chats.filter (fun x => x.student_id = a ∧ x.instructor_id = b) = c :: rest) :
    ∃ rest2, (step s op).chats.filter (fun x => x.student_id = a ∧ x.instructor_id = b)
      = c :: rest2 := by
  rcases step_chats s op with h0 | ⟨row, hrow, -⟩
  · rw [h0]; exact ⟨rest, h⟩
  · rw [hrow, List.filter_append, h]
    exact ⟨_, rfl⟩

/-- After any sequence of requests, identities that resolved still resolve to the same ids
and the first chat row of their pair is still the same row. -/
theorem run_keeps_chat (ops : List Op) : ∀ (s : Store) (su iu : String) (sid iid : Nat)
    (c : Chat) (rest : List Chat),
    getPostgresId s su = some sid → getPostgresId s iu = some iid →
    s.chats.filter (fun x => x.student_id = sid ∧ x.instructor_id = iid) = c :: rest →
    getPostgresId (run s ops) su = some sid ∧ getPostgresId (run s ops) iu = some iid ∧
    ∃ rest2, (run s ops).chats.filter (fun x => x.student_id = sid ∧ x.instructor_id = iid)
      = c :: rest2 := by
  induction ops with
  | nil => intro s su iu sid iid c rest h1 h2 h3; exact ⟨h1, h2, rest, h3⟩
  | cons op ops ih =>
    intro s su iu sid iid c rest h1 h2 h3
    obtain ⟨rest2, h4⟩ := firstChat_step s op sid iid c rest h3
    exact ih (step s op) su iu sid iid c rest2 (getPostgresId_step s op su sid h1)
      (getPostgresId_step s op iu iid h2) h4

/-- `create-or-get` on a pair that has a chat row returns the first such row, not new. -/
theorem createChat_existing (s : Store) (su iu : String) (sid iid now : Nat) (c : Chat)
    (rest : List Chat)
    (hs : getPostgresId s su = some sid) (hsid : sid ≠ 0)
    (hi : getPostgresId s iu = some iid) (hiid : iid ≠ 0)
    (h : s.chats.filter (fun x => x.student_id = sid ∧ x.instructor_id = iid) = c :: rest) :
    createChat s su iu now = (s, Response.ok (.chatRef c.chat_id false)) := by
  unfold createChat
  rw [hs, hi]
  simp only [hsid, hiid, or_self, if_false, h]

/-- `create-or-get` on a pair without a chat row appends the row and returns it as new. -/
theorem createChat_fresh (s : Store) (su iu : String) (sid iid now : Nat)
    (hs : getPostgresId s su = some sid) (hsid : sid ≠ 0)
    (hi : getPostgresId s iu = some iid) (hiid : iid ≠ 0)
    (h : s.chats.filter (fun x => x.student_id = sid ∧ x.instructor_id = iid) = []) :
    createChat s su iu now =
      ({ s with
          chats := s.chats ++ [{ chat_id := s.chat_id_seq, student_id := sid,
                                 instructor_id := iid, created_at := now }],
          chat_id_seq := s.chat_id_seq + 1 },
        Response.ok (.chatRef s.chat_id_seq true)) := by
  unfold createChat
  rw [hs, hi]
  simp only [hsid, hiid, or_self, if_false, h]

/-- C6: when both identities resolve (to keys, hence non-zero) and no chat exists for the
ordered pair of their internal identities, the first
create-or-get call returns `isNew = true` with a chat id `K` and appends exactly one chat row
(for that pair); after any sequence of further requests, a create-or-get call for the same
pair returns `isNew = false` with the same `K` and leaves the store as it is. -/
theorem createChat_first_then_same (s : Store) (su iu : String) (sid iid now : Nat)
    (hs : getPostgresId s su = some sid) (hsid : sid ≠ 0)
    (hi : getPostgresId s iu = some iid) (hiid : iid ≠ 0)
    (hnone : ∀ c ∈ s.chats, ¬ (c.student_id = sid ∧ c.instructor_id = iid)) :
    ∃ K : Nat,
      (createChat s su iu now).2 = Response.ok (.chatRef K true) ∧
      (createChat s su iu now).1.chats =
        s.chats ++ [{ chat_id := K, student_id := sid, instructor_id := iid,
                      created_at := now }] ∧
      ∀ (ops : List Op) (now2 : Nat),
        createChat (run (createChat s su iu now).1 ops) su iu now2 =
          (run (createChat s su iu now).1 ops, Response.ok (.chatRef K false)) := by
  have hnil : s.chats.filter (fun x => x.student_id = sid ∧ x.instructor_id = iid) = [] := by
    rw [List.filter_eq_nil_iff]
    intro c hc
    simpa using hnone c hc
  refine ⟨s.chat_id_seq, ?_, ?_, ?_⟩
  · rw [createChat_fresh s su iu sid iid now hs hsid hi hiid hnil]
  · rw [createChat_fresh s su iu sid iid now hs hsid hi hiid hnil]
  · intro ops now2
    rw [createChat_fresh s su iu sid iid now hs hsid hi hiid hnil]
    have key := run_keeps_chat ops
      { s with
        chats := s.chats ++ [{ chat_id := s.chat_id_seq, student_id := sid,
                               instructor_id := iid, created_at := now }],
        chat_id_seq := s.chat_id_seq + 1 } su iu sid iid
      { chat_id := s.chat_id_seq, student_id := sid, instructor_id := iid, created_at := now }
      [] hs hi
      (by
        show List.filter _ (s.chats ++ [_]) = _
        rw [List.filter_append, hnil]
        simp)
    obtain ⟨h1, h2, rest2, h3⟩ := key
    exact createChat_existing _ su iu sid iid now2 _ rest2 h1 hsid h2 hiid h3

/-- One request keeps the chat rows unique per ordered pair. -/
theorem chatUnique_step (s : Store) (op : Op) (h : ChatUnique s) : ChatUnique (step s op) := by
  unfold ChatUnique at h ⊢
  rcases step_chats s op with h0 | ⟨row, hrow, hnil⟩
  · rw [h0]; exact h
  · rw [hrow, List.map_append, List.nodup_append]
    refine ⟨h, by simp, ?_⟩
    intro p hp hq
    simp only [List.map_cons, List.map_nil, List.mem_singleton] at hq
    subst hq
    obtain ⟨c, hc, hcp⟩ := List.mem_map.1 hp
    rw [List.filter_eq_nil_iff] at hnil
    have := hnil c hc
    simp only [Prod.mk.injEq] at hcp
    simp [hcp.1, hcp.2] at this

/-- C7: every single request (sync-user, save-fcm-token, upload, download, list, create-or-get,
history, mark-read, send_message) keeps "at most one chat row per ordered (student,
instructor) pair", and so every state reachable from the empty store has it. -/
theorem chatUnique_invariant :
    (∀ (s : Store) (op : Op), ChatUnique s → ChatUnique (step s op)) ∧
    (∀ s : Store, Reachable s → ChatUnique s) := by
  refine ⟨chatUnique_step, ?_⟩
  intro s hs
  induction hs with
  | init => unfold ChatUnique; simp [Store.empty]
  | next s op _ ih => exact chatUnique_step s op ih


/-- C6 at the sample store: the pair (`u2` as student, `u1` as instructor) has no chat yet. -/
theorem createChat_first_then_same_witness :
    ∃ K : Nat,
      (createChat sampleStore "u2" "u1" 20).2 = Response.ok (.chatRef K true) ∧
      (createChat sampleStore "u2" "u1" 20).1.chats =
        sampleStore.chats ++ [{ chat_id := K, student_id := 2, instructor_id := 1,
                                created_at := 20 }] ∧
      ∀ (ops : List Op) (now2 : Nat),
        createChat (run (createChat sampleStore "u2" "u1" 20).1 ops) "u2" "u1" now2 =
          (run (createChat sampleStore "u2" "u1" 20).1 ops, Response.ok (.chatRef K false)) :=
  createChat_first_then_same sampleStore "u2" "u1" 2 1 20 (by decide) (by decide) (by decide)
    (by decide) (by decide)

/-- C7 at the sample store: a create-or-get request keeps the chat rows unique. -/
theorem chatUnique_invariant_witness :
    ChatUnique sampleStore ∧ ChatUnique (step sampleStore (.createChat "u2" "u1" 20)) :=
  ⟨by decide, chatUnique_invariant.1 sampleStore (.createChat "u2" "u1" 20) (by decide)⟩

/-! ## The key constraints hold in every reachable state -/

/-- A rewrite of rows that keeps both keys keeps the constraints on `users`. -/
theorem schemaOk_map_users (s : Store) (f : User → User)
    (hf : ∀ x, (f x).firebase_uid = x.firebase_uid ∧ (f x).user_id = x.user_id)
    (h : SchemaOk s) : SchemaOk { s with users := s.users.map f } := by
  have h1 : (s.users.map f).map (fun u => u.firebase_uid) = s.users.map (fun u => u.firebase_uid) := by
    rw [List.map_map]
    apply List.map_congr_left
    intro x _
    exact (hf x).1
  have h2 : (s.users.map f).map (fun u => u.user_id) = s.users.map (fun u => u.user_id) := by
    rw [List.map_map]
    apply List.map_congr_left
    intro x _
    exact (hf x).2
  refine ⟨by rw [h1]; exact h.uid_unique, by rw [h2]; exact h.user_pk, ?_, h.user_seq,
    h.file_pk, h.file_ids, h.file_seq⟩
  intro y hy
  obtain ⟨x, hx, rfl⟩ := List.mem_map.1 hy
  rw [(hf x).2]
  exact h.user_ids x hx

/-- One request keeps the key constraints. -/
theorem schemaOk_step (s : Store) (op : Op) (h : SchemaOk s) : SchemaOk (step s op) := by
  cases op with
  | syncUser u e n r =>
    rcases syncUser_store s u e n r with ⟨f, hf, heq⟩ | ⟨row, hid, huid, hnew, heq⟩
    · show SchemaOk (syncUser s u e n r).1
      rw [heq]
      exact schemaOk_map_users s f hf h
    · show SchemaOk (syncUser s u e n r).1
      rw [heq]
      refine ⟨?_, ?_, ?_, Nat.succ_pos _, h.file_pk, h.file_ids, h.file_seq⟩
      · show ((s.users ++ [row]).map (fun u => u.firebase_uid)).Nodup
        rw [List.map_append, List.nodup_append]
        refine ⟨h.uid_unique, by simp, ?_⟩
        intro a ha hb
        simp only [List.map_cons, List.map_nil, List.mem_singleton] at hb
        obtain ⟨x, hx, hxa⟩ := List.mem_map.1 ha
        exact hnew x hx (by rw [hxa, hb, huid])
      · show ((s.users ++ [row]).map (fun u => u.user_id)).Nodup
        rw [List.map_append, List.nodup_append]
        refine ⟨h.user_pk, by simp, ?_⟩
        intro a ha hb
        simp only [List.map_cons, List.map_nil, List.mem_singleton] at hb
        obtain ⟨x, hx, hxa⟩ := List.mem_map.1 ha
        have := (h.user_ids x hx).2
        omega
      · intro x hx
        show 0 < x.user_id ∧ x.user_id < s.user_id_seq + 1
        rcases List.mem_append.1 hx with hx | hx
        · have := h.user_ids x hx
          omega
        · simp only [List.mem_singleton] at hx
          have := h.user_seq
          subst hx
          omega
  | saveFcmToken u t =>
    obtain ⟨f, hf, heq⟩ := saveFcmToken_store s u t
    show SchemaOk (saveFcmToken s u t).1
    rw [heq]
    exact schemaOk_map_users s f hf h
  | upload f now =>
    show SchemaOk (upload s f now).1
    rcases upload_store s f now with heq | ⟨row, hid, heq⟩
    · rw [heq]; exact h
    · rw [heq]
      refine ⟨h.uid_unique, h.user_pk, h.user_ids, h.user_seq, ?_, ?_, Nat.succ_pos _⟩
      · show ((s.files ++ [row]).map (fun f => f.file_id)).Nodup
        rw [List.map_append, List.nodup_append]
        refine ⟨h.file_pk, by simp, ?_⟩
        intro a ha hb
        simp only [List.map_cons, List.map_nil, List.mem_singleton] at hb
        obtain ⟨x, hx, hxa⟩ := List.mem_map.1 ha
        have := (h.file_ids x hx).2
        omega
      · intro x hx
        show 0 < x.file_id ∧ x.file_id < s.file_id_seq + 1
        rcases List.mem_append.1 hx with hx | hx
        · have := h.file_ids x hx
          omega
        · simp only [List.mem_singleton] at hx
          have := h.file_seq
          subst hx
          omega
  | download _ => exact h
  | listChats _ => exact h
  | createChat a b now =>
    obtain ⟨cs, k, heq⟩ := createChat_store s a b now
    show SchemaOk (createChat s a b now).1
    rw [heq]
    exact ⟨h.uid_unique, h.user_pk, h.user_ids, h.user_seq, h.file_pk, h.file_ids, h.file_seq⟩
  | getMessages _ => exact h
  | markRead c u =>
    obtain ⟨ms, heq⟩ := markRead_store s c u
    show SchemaOk (markRead s c u).1
    rw [heq]
    exact ⟨h.uid_unique, h.user_pk, h.user_ids, h.user_seq, h.file_pk, h.file_ids, h.file_seq⟩
  | sendMessage d now =>
    obtain ⟨ms, k, heq⟩ := sendMessage_store s d now
    show SchemaOk (sendMessage s d now).1
    rw [heq]
    exact ⟨h.uid_unique, h.user_pk, h.user_ids, h.user_seq, h.file_pk, h.file_ids, h.file_seq⟩

/-- Every reachable state satisfies the key constraints. -/
theorem reachable_schemaOk (s : Store) (h : Reachable s) : SchemaOk s := by
  induction h with
  | init =>
    exact ⟨by simp [Store.empty], by simp [Store.empty], by simp [Store.empty],
      by simp [Store.empty], by simp [Store.empty], by simp [Store.empty], by simp [Store.empty]⟩
  | next s op _ ih => exact schemaOk_step s op ih

/-- In a state that satisfies the key constraints, an identity that matches a row resolves
to a non-zero id. -/
theorem getPostgresId_pos (s : Store) (h : SchemaOk s) (a : String) (i : Nat)
    (hres : getPostgresId s a = some i) : i ≠ 0 := by
  unfold getPostgresId at hres
  cases hf : s.users.filter (fun u => u.firebase_uid = a) with
  | nil => rw [hf] at hres; simp at hres
  | cons u rest =>
    rw [hf] at hres
    have hmem : u ∈ s.users.filter (fun u => u.firebase_uid = a) := by rw [hf]; simp
    have := (h.user_ids u (List.mem_filter.1 hmem).1).1
    have hid : u.user_id = i := by simpa using hres
    omega


/-! ## Attachment store -/

/-- A value that `res.setHeader` accepts holds no U+0000. -/
theorem pgText_of_validHeaderValue (t : String) (h : validHeaderValue t = true) :
    pgText t = true := by
  unfold validHeaderValue at h
  unfold pgText
  rw [List.all_eq_true] at h ⊢
  intro c hc
  have := h c hc
  simp only [decide_eq_true_eq] at this ⊢
  omega

/-- The `Content-Disposition` value is accepted by `res.setHeader` when the filename is. -/
theorem validHeaderValue_disposition (n : String) (h : validHeaderValue n = true) :
    validHeaderValue ("inline; filename=\"" ++ n ++ "\"") = true := by
  unfold validHeaderValue at h ⊢
  simp only [String.data_append, List.all_append, Bool.and_eq_true]
  exact ⟨⟨by decide, h⟩, by decide⟩

/-- C8, as stated, fails: a payload above the 50 MiB multer limit is answered with status 500
and no download returns it; and a small payload whose filename has a character above U+00FF
is stored, but its download is answered 500, because `res.setHeader` rejects the
`Content-Disposition` value. -/
theorem upload_oversize_rejected :
    ((upload Store.empty (some oversizePayload) 0).2.status = 500 ∧
      ∀ f : Nat, (download (upload Store.empty (some oversizePayload) 0).1 f).status ≠ 200) ∧
    ((upload sampleStore (some wideNamePayload) 40).2 = Response.ok (.fileRef 2) ∧
      (download (upload sampleStore (some wideNamePayload) 40).1 2).status = 500) := by
  have h : upload Store.empty (some oversizePayload) 0
      = (Store.empty, Response.fail 500 (.text "MulterError: File too large")) := by
    unfold upload
    simp only [oversizePayload, List.length_replicate]
    rw [if_pos (Nat.lt_succ_self _)]
  rw [h]
  refine ⟨⟨rfl, fun f => ?_⟩, by decide⟩
  show (download Store.empty f).status ≠ 200
  unfold download
  by_cases hf : int4Max < f
  · rw [if_pos hf]
    decide
  · rw [if_neg hf]
    simp [Store.empty, Response.fail]

/-- C8, amended: for a payload of less than 50 MiB whose filename and MIME type are values that
`res.setHeader` accepts (characters tab, U+0020..U+007E, U+0080..U+00FF) and whose MIME type
is not empty, on a store whose file-id sequence is ahead of every stored file id and within
the range of the key, upload returns a file id whose download answers 200 with the payload
bytes, `Content-Type` the payload MIME type and an inline `Content-Disposition` with the
payload filename; the files table is the old one with one row appended. -/
theorem upload_download_roundtrip (s : Store) (p : UploadedFile) (now : Nat)
    (hsize : p.buffer.length < fileSizeLimit)
    (hname : validHeaderValue p.originalname = true)
    (hmime : validHeaderValue p.mimetype = true) (hmime0 : p.mimetype ≠ "")
    (hseq : ∀ f ∈ s.files, f.file_id < s.file_id_seq) (hrange : s.file_id_seq ≤ int4Max) :
    ∃ fid : Nat,
      (upload s (some p) now).2 = Response.ok (.fileRef fid) ∧
      download (upload s (some p) now).1 fid =
        { status := 200,
          headers := [("Content-Type", p.mimetype),
                      ("Content-Disposition", "inline; filename=\"" ++ p.originalname ++ "\"")],
          body := .bytes p.buffer } ∧
      ∃ row : File, (upload s (some p) now).1.files = s.files ++ [row] := by
  have hu : upload s (some p) now =
      ({ s with
          files := s.files ++ [{ file_id := s.file_id_seq, filename := p.originalname,
                                 mime_type := p.mimetype, data := p.buffer,
                                 created_at := now }],
          file_id_seq := s.file_id_seq + 1 },
        Response.ok (.fileRef s.file_id_seq)) := by
    unfold upload
    simp only [not_lt.2 (Nat.le_of_lt hsize), if_false, pgText_of_validHeaderValue _ hname,
      pgText_of_validHeaderValue _ hmime, hrange, decide_True, Bool.and_self, if_true]
  have hnil : s.files.filter (fun f => f.file_id = s.file_id_seq) = [] := by
    rw [List.filter_eq_nil_iff]
    intro f hf
    have := hseq f hf
    simp
    omega
  refine ⟨s.file_id_seq, ?_, ?_, ?_⟩
  · rw [hu]
  · rw [hu]
    unfold download
    rw [if_neg (not_lt.2 hrange)]
    simp only [List.filter_append, hnil]
    simp [hmime, hmime0, validHeaderValue_disposition _ hname]
  · rw [hu]
    exact ⟨_, rfl⟩

/-- C8 at the sample store. -/
theorem upload_download_roundtrip_witness :
    (upload sampleStore (some smallPayload) 40).2 = Response.ok (.fileRef 2) ∧
    ∃ fid : Nat,
      (upload sampleStore (some smallPayload) 40).2 = Response.ok (.fileRef fid) ∧
      download (upload sampleStore (some smallPayload) 40).1 fid =
        { status := 200,
          headers := [("Content-Type", smallPayload.mimetype),
                      ("Content-Disposition",
                        "inline; filename=\"" ++ smallPayload.originalname ++ "\"")],
          body := .bytes smallPayload.buffer } ∧
      ∃ row : File, (upload sampleStore (some smallPayload) 40).1.files
        = sampleStore.files ++ [row] :=
  ⟨by decide,
   upload_download_roundtrip sampleStore smallPayload 40 (by decide) (by decide) (by decide)
     (by decide) (by decide) (by decide)⟩

/-! ## send_message -/

/-- An external identity that matches no row does not resolve. -/
theorem getPostgresId_eq_none (s : Store) (a : String)
    (h : ∀ u ∈ s.users, u.firebase_uid ≠ a) : getPostgresId s a = none := by
  unfold getPostgresId
  have hnil : s.users.filter (fun u => u.firebase_uid = a) = [] := by
    rw [List.filter_eq_nil_iff]
    intro u hu
    simpa using h u hu
  rw [hnil]

/-- C9: when the sender or the receiver external identity matches no user row, `send_message`
leaves the store as it is, emits nothing to any channel (so no `receive_message`, no
`new_notification` and no error event) and submits no push notification. -/
theorem sendMessage_unresolved (s : Store) (d : SendMessageData) (now : Nat)
    (h : (∀ u ∈ s.users, u.firebase_uid ≠ d.sender_firebase_uid) ∨
         (∀ u ∈ s.users, u.firebase_uid ≠ d.receiver_firebase_uid)) :
    sendMessage s d now = (s, { emitted := [], pushed := [] }) := by
  unfold sendMessage
  rcases h with h | h
  · rw [getPostgresId_eq_none s _ h]
    rfl
  · rw [getPostgresId_eq_none s _ h]
    cases getPostgresId s d.sender_firebase_uid <;> rfl

/-- C9 at the sample store: the sender `nobody` is unknown. -/
theorem sendMessage_unresolved_witness :
    sendMessage sampleStore sendUnknown 30 = (sampleStore, { emitted := [], pushed := [] }) :=
  sendMessage_unresolved sampleStore sendUnknown 30 (Or.inl (by decide))


/-- `text || ""` is the text, or the empty string when the text is absent. -/
theorem strOr_empty (x : Option String) : strOr x "" = x.getD "" := by
  cases x with
  | none => rfl
  | some t =>
    unfold strOr
    by_cases h : t = "" <;> simp [h]

/-- The insert of `send_message` passes the foreign key when the attachment is absent or the
non-zero id of a stored file; the stored reference is then the one given. -/
theorem attachment_ok (s : Store) (att : Option Nat)
    (hatt : att = none ∨ ∃ f ∈ s.files, f.file_id ≠ 0 ∧ att = some f.file_id) :
    idOrNull att = att ∧
    att.all (fun a => s.files.any (fun f => f.file_id = a)) = true := by
  rcases hatt with rfl | ⟨f, hf, hne, rfl⟩
  · exact ⟨rfl, rfl⟩
  · constructor
    · cases hk : f.file_id with
      | zero => exact absurd hk hne
      | succ k => rfl
    · simp only [Option.all_some, List.any_eq_true, decide_eq_true_eq]
      exact ⟨f, hf, rfl⟩

/-- The `send_message` handler when both identities resolve and the insert succeeds. -/
theorem sendMessage_resolved (s : Store) (d : SendMessageData) (now sid rid : Nat)
    (hs : getPostgresId s d.sender_firebase_uid = some sid) (hsid : sid ≠ 0)
    (hr : getPostgresId s d.receiver_firebase_uid = some rid) (hrid : rid ≠ 0)
    (htext : pgText (d.text.getD "") = true)
    (hatt : d.attachment_file_id = none ∨
      ∃ f ∈ s.files, f.file_id ≠ 0 ∧ d.attachment_file_id = some f.file_id) :
    (sendMessage s d now).1 =
      { s with
        messages := s.messages ++
          [{ message_id := s.message_id_seq, chat_id := d.chat_id, sender_id := sid,
             receiver_id := rid, text := d.text.getD "", is_read := false,
             attachment_file_id := d.attachment_file_id, created_at := now }],
        message_id_seq := s.message_id_seq + 1 } := by
  obtain ⟨h1, h2⟩ := attachment_ok s d.attachment_file_id hatt
  unfold sendMessage
  rw [hs, hr]
  simp only [hsid, hrid, or_self, if_false, h1, h2, if_true, strOr_empty, htext,
    Bool.and_self]

/-- The joined rows of one message, under the primary keys of `users` and `files`. -/
theorem join_new_message (s : Store) (m : Message) (u : User)
    (hu : s.users.filter (fun x => m.sender_id = x.user_id) = [u])
    (hfk : (s.files.map (fun f => f.file_id)).Nodup) :
    ∃ f : Option File,
      (s.users.filter (fun x => m.sender_id = x.user_id)).flatMap (fun x =>
        (leftJoinFiles s m).map (fun f => (m, x, f))) = [(m, u, f)] := by
  rw [hu]
  simp only [List.flatMap_cons, List.flatMap_nil, List.append_nil]
  unfold leftJoinFiles
  cases ha : m.attachment_file_id with
  | none => exact ⟨none, by simp⟩
  | some a =>
    have hfun : (fun f : File => decide (some a = some f.file_id))
        = (fun f : File => decide (f.file_id = a)) := by
      funext f
      simp [eq_comm]
    rw [hfun]
    rcases filter_key_of_nodup (fun f : File => f.file_id) a s.files hfk with h0 | ⟨x, hx⟩
    · rw [h0]; exact ⟨none, rfl⟩
    · rw [hx]; exact ⟨some x, rfl⟩

/-- The row of the sender, under the primary key of `users`. -/
theorem sender_row (s : Store) (a : String) (i : Nat) (h : getPostgresId s a = some i)
    (hpk : (s.users.map (fun x => x.user_id)).Nodup) :
    ∃ u : User, u.firebase_uid = a ∧ s.users.filter (fun x => i = x.user_id) = [u] := by
  unfold getPostgresId at h
  cases hf : s.users.filter (fun u => u.firebase_uid = a) with
  | nil => rw [hf] at h; simp at h
  | cons u rest =>
    rw [hf] at h
    have hmem : u ∈ s.users.filter (fun u => u.firebase_uid = a) := by rw [hf]; simp
    have hu := List.mem_filter.1 hmem
    have hid : u.user_id = i := by simpa using h
    refine ⟨u, by simpa using hu.2, ?_⟩
    have := filter_key_eq_singleton (fun x : User => x.user_id) s.users hpk u hu.1
    rw [← hid, ← this]
    apply List.filter_congr
    intro x _
    simp [eq_comm]

/-- History after one more message row: the old records and the record of the new row. -/
theorem messageRows_append (s : Store) (m : Message) (seq : Nat) (u : User) (f : Option File)
    (hj : (s.users.filter (fun x => m.sender_id = x.user_id)).flatMap (fun x =>
        (leftJoinFiles s m).map (fun f => (m, x, f))) = [(m, u, f)]) :
    List.Perm
      (messageRows { s with messages := s.messages ++ [m], message_id_seq := seq } m.chat_id)
      (messageRows s m.chat_id ++ [messageRecord (m, u, f)]) := by
  have hjoin : messageJoin { s with messages := s.messages ++ [m], message_id_seq := seq }
      = messageJoin s ++ [(m, u, f)] := by
    unfold messageJoin
    simp only [List.flatMap_append, List.flatMap_cons, List.flatMap_nil, List.append_nil]
    congr 1
  have hmap : ∀ (l : List (Message × User × Option File)) (x : Message × User × Option File),
      List.map messageRecord l ++ [messageRecord x] = List.map messageRecord (l ++ [x]) := by
    intro l x
    simp
  unfold messageRows
  rw [hmap, hjoin, List.filter_append]
  apply List.Perm.map
  refine (List.perm_insertionSort _ _).trans ?_
  have hlast : List.filter (fun row : Message × User × Option File =>
      decide (row.1.chat_id = m.chat_id)) [(m, u, f)] = [(m, u, f)] := by simp
  rw [hlast]
  exact List.Perm.append_right _ (List.perm_insertionSort _ _).symm

/-- C10, amended: when both identities resolve (to keys, hence non-zero), the text holds no
U+0000 and the attachment is absent or the non-zero id of a stored file, `send_message`
appends exactly one message row, with the input chat id, the resolved sender and receiver
ids, `is_read = false`, the text (empty when absent) and the
attachment reference; users, chats, files and the earlier message rows are unchanged; and,
under the primary keys of `users` and `files`, the history of the chat afterwards is the
history before plus one record for this message, unread. -/
theorem sendMessage_persists (s : Store) (d : SendMessageData) (now sid rid : Nat)
    (hs : getPostgresId s d.sender_firebase_uid = some sid) (hsid : sid ≠ 0)
    (hr : getPostgresId s d.receiver_firebase_uid = some rid) (hrid : rid ≠ 0)
    (htext : pgText (d.text.getD "") = true)
    (hatt : d.attachment_file_id = none ∨
      ∃ f ∈ s.files, f.file_id ≠ 0 ∧ d.attachment_file_id = some f.file_id) :
    ∃ m : Message,
      (sendMessage s d now).1.messages = s.messages ++ [m] ∧
      m.chat_id = d.chat_id ∧ m.sender_id = sid ∧ m.receiver_id = rid ∧ m.is_read = false ∧
      m.text = d.text.getD "" ∧ m.attachment_file_id = d.attachment_file_id ∧
      (sendMessage s d now).1.users = s.users ∧
      (sendMessage s d now).1.chats = s.chats ∧
      (sendMessage s d now).1.files = s.files ∧
      ((s.users.map (fun x => x.user_id)).Nodup → (s.files.map (fun f => f.file_id)).Nodup →
        ∃ (r : MessageRecord) (before after : List MessageRecord),
          getMessages s d.chat_id = Response.ok (.messageList before) ∧
          getMessages (sendMessage s d now).1 d.chat_id = Response.ok (.messageList after) ∧
          List.Perm after (before ++ [r]) ∧
          r.message_id = m.message_id ∧ r.text = d.text.getD "" ∧ r.is_read = false ∧
          r.sender_uid = d.sender_firebase_uid ∧
          r.attachment_file_id = d.attachment_file_id) := by
  rw [sendMessage_resolved s d now sid rid hs hsid hr hrid htext hatt]
  refine ⟨_, rfl, rfl, rfl, rfl, rfl, rfl, rfl, rfl, rfl, rfl, ?_⟩
  intro hpk hfk
  obtain ⟨u, huid, hu⟩ := sender_row s _ sid hs hpk
  obtain ⟨f, hf⟩ := join_new_message s
    { message_id := s.message_id_seq, chat_id := d.chat_id, sender_id := sid,
      receiver_id := rid, text := d.text.getD "", is_read := false,
      attachment_file_id := d.attachment_file_id, created_at := now } u hu hfk
  exact ⟨_, _, _, rfl, rfl, messageRows_append s _ (s.message_id_seq + 1) u f hf,
    rfl, rfl, rfl, huid, rfl⟩

/-- C10, as stated, fails: sender and receiver resolve, but the attachment id 7 names no stored
file, the insert violates the foreign key, and no message row is added (nor anything
emitted); the same happens, without attachment, for a text that holds U+0000. -/
theorem sendMessage_dangling_attachment :
    getPostgresId sampleStore sendDangling.sender_firebase_uid = some 1 ∧
    getPostgresId sampleStore sendDangling.receiver_firebase_uid = some 2 ∧
    sendMessage sampleStore sendDangling 30 = (sampleStore, Effects.none) ∧
    sendMessage sampleStore sendNul 30 = (sampleStore, Effects.none) := by
  decide

/-- C10 at the sample store: `u1` sends the stored file 1 to `u2` without text. -/
theorem sendMessage_persists_witness :
    ∃ m : Message,
      (sendMessage sampleStore sendWithFile 30).1.messages = sampleStore.messages ++ [m] ∧
      m.is_read = false ∧ m.text = "" ∧ m.attachment_file_id = some 1 := by
  obtain ⟨m, h1, -, -, -, h5, h6, h7, -⟩ :=
    sendMessage_persists sampleStore sendWithFile 30 1 2 (by decide) (by decide) (by decide)
      (by decide) (by decide) (by decide)
  exact ⟨m, h1, h5, h6, h7⟩

/-! ## Broadcast and push -/

/-- The `fileData` of `send_message` for an attachment that is absent or stored. -/
theorem fileData_ok (s : Store) (att : Option Nat)
    (hatt : att = none ∨ ∃ f ∈ s.files, f.file_id ≠ 0 ∧ att = some f.file_id) :
    (att = none → fileData s att = (none, none, none)) ∧
    (∀ a, att = some a → ∃ f ∈ s.files, f.file_id = a ∧
      fileData s att = (some f.filename, some f.mime_type, some (fileUrl a))) := by
  rcases hatt with rfl | ⟨f, hf, hne, rfl⟩
  · exact ⟨fun _ => rfl, fun a h => by simp at h⟩
  · refine ⟨fun h => by simp at h, ?_⟩
    intro a ha
    have hfa : f.file_id = a := by simpa using ha
    subst hfa
    obtain ⟨k, hk⟩ := Nat.exists_eq_succ_of_ne_zero hne
    have hid : idOrNull (some f.file_id) = some f.file_id := by
      rw [hk]; rfl
    unfold fileData
    rw [hid]
    cases hfl : s.files.filter (fun g => g.file_id = f.file_id) with
    | nil =>
      have : f ∈ s.files.filter (fun g => g.file_id = f.file_id) := by
        simp [List.mem_filter, hf]
      rw [hfl] at this
      simp at this
    | cons g rest =>
      have hg : g ∈ s.files.filter (fun g => g.file_id = f.file_id) := by rw [hfl]; simp
      have hg2 := List.mem_filter.1 hg
      refine ⟨g, hg2.1, by simpa using hg2.2, ?_⟩
      simp only [hfl]

/-- The effects of `send_message` when both identities resolve and the insert succeeds. -/
theorem sendMessage_effects (s : Store) (d : SendMessageData) (now sid rid : Nat)
    (hs : getPostgresId s d.sender_firebase_uid = some sid) (hsid : sid ≠ 0)
    (hr : getPostgresId s d.receiver_firebase_uid = some rid) (hrid : rid ≠ 0)
    (htext : pgText (d.text.getD "") = true)
    (hatt : d.attachment_file_id = none ∨
      ∃ f ∈ s.files, f.file_id ≠ 0 ∧ d.attachment_file_id = some f.file_id) :
    (sendMessage s d now).2 =
      { emitted :=
          [{ channel := .chat d.chat_id, event := "receive_message",
             payload :=
               { message_id := s.message_id_seq, text := d.text.getD "", created_at := now,
                 attachment_file_id := d.attachment_file_id,
                 attachment_name := (fileData s d.attachment_file_id).1,
                 attachment_type := (fileData s d.attachment_file_id).2.1,
                 attachment_url := (fileData s d.attachment_file_id).2.2,
                 chat_id := d.chat_id, sender_uid := d.sender_firebase_uid,
                 receiver_uid := d.receiver_firebase_uid,
                 client_side_id := d.client_side_id } },
           { channel := .user d.receiver_firebase_uid, event := "new_notification",
             payload :=
               { message_id := s.message_id_seq, text := d.text.getD "", created_at := now,
                 attachment_file_id := d.attachment_file_id,
                 attachment_name := (fileData s d.attachment_file_id).1,
                 attachment_type := (fileData s d.attachment_file_id).2.1,
                 attachment_url := (fileData s d.attachment_file_id).2.2,
                 chat_id := d.chat_id, sender_uid := d.sender_firebase_uid,
                 receiver_uid := d.receiver_firebase_uid,
                 client_side_id := d.client_side_id } }],
        pushed := pushFor s d sid rid } := by
  obtain ⟨h1, h2⟩ := attachment_ok s d.attachment_file_id hatt
  unfold sendMessage
  rw [hs, hr]
  simp only [hsid, hrid, or_self, if_false, h1, h2, if_true, strOr_empty, htext,
    Bool.and_self]

/-- C11, amended: when both identities resolve (to keys, hence non-zero), the text holds no
U+0000 and the attachment is absent or the non-zero id of a stored file, `send_message`
emits exactly twice:
`receive_message` to the channel of the chat id and `new_notification` to the channel of the
receiver external identity, both with the same payload; the payload has the id, text and
timestamp of the persisted row, the input chat id, both external identities, the input
`client_side_id`, and the name, type and URL of the attachment when one was given (none of
them otherwise). -/
theorem sendMessage_emits (s : Store) (d : SendMessageData) (now sid rid : Nat)
    (hs : getPostgresId s d.sender_firebase_uid = some sid) (hsid : sid ≠ 0)
    (hr : getPostgresId s d.receiver_firebase_uid = some rid) (hrid : rid ≠ 0)
    (htext : pgText (d.text.getD "") = true)
    (hatt : d.attachment_file_id = none ∨
      ∃ f ∈ s.files, f.file_id ≠ 0 ∧ d.attachment_file_id = some f.file_id) :
    ∃ (m : Message) (p : MessagePayload),
      (sendMessage s d now).1.messages = s.messages ++ [m] ∧
      (sendMessage s d now).2.emitted =
        [{ channel := .chat d.chat_id, event := "receive_message", payload := p },
         { channel := .user d.receiver_firebase_uid, event := "new_notification",
           payload := p }] ∧
      p.message_id = m.message_id ∧ p.text = m.text ∧ p.created_at = m.created_at ∧
      p.chat_id = d.chat_id ∧ p.sender_uid = d.sender_firebase_uid ∧
      p.receiver_uid = d.receiver_firebase_uid ∧ p.client_side_id = d.client_side_id ∧
      p.attachment_file_id = d.attachment_file_id ∧
      (d.attachment_file_id = none →
        p.attachment_name = none ∧ p.attachment_type = none ∧ p.attachment_url = none) ∧
      (∀ a, d.attachment_file_id = some a → ∃ f ∈ s.files, f.file_id = a ∧
        p.attachment_name = some f.filename ∧ p.attachment_type = some f.mime_type ∧
        p.attachment_url = some (fileUrl a)) := by
  rw [sendMessage_resolved s d now sid rid hs hsid hr hrid htext hatt,
    sendMessage_effects s d now sid rid hs hsid hr hrid htext hatt]
  obtain ⟨hnone, hsome⟩ := fileData_ok s d.attachment_file_id hatt
  refine ⟨_, _, rfl, rfl, rfl, rfl, rfl, rfl, rfl, rfl, rfl, rfl, ?_, ?_⟩
  · intro h
    rw [hnone h]
    exact ⟨rfl, rfl, rfl⟩
  · intro a ha
    obtain ⟨f, hf, hfa, hfd⟩ := hsome a ha
    rw [hfd]
    exact ⟨f, hf, hfa, rfl, rfl, rfl⟩

/-- C11, as stated, fails: sender and receiver resolve, but with an attachment id that names no
stored file the insert throws before the broadcast, and nothing is emitted; the same
happens, without attachment, for a text that holds U+0000. -/
theorem sendMessage_dangling_no_emission :
    getPostgresId sampleStore sendDangling.sender_firebase_uid = some 1 ∧
    getPostgresId sampleStore sendDangling.receiver_firebase_uid = some 2 ∧
    (sendMessage sampleStore sendDangling 31).2.emitted = [] ∧
    (sendMessage sampleStore sendNul 31).2.emitted = [] := by
  decide

/-- C11 at the sample store: `u1` sends the stored file 1 to `u2`. -/
theorem sendMessage_emits_witness :
    ∃ p : MessagePayload,
      (sendMessage sampleStore sendWithFile 30).2.emitted =
        [{ channel := .chat 1, event := "receive_message", payload := p },
         { channel := .user "u2", event := "new_notification", payload := p }] ∧
      p.client_side_id = some "c-1" ∧ p.attachment_name = some "a.txt" := by
  obtain ⟨m, p, -, h2, -, -, -, -, -, -, h9, -, -, h12⟩ :=
    sendMessage_emits sampleStore sendWithFile 30 1 2 (by decide) (by decide) (by decide)
      (by decide) (by decide) (by decide)
  refine ⟨p, h2, h9, ?_⟩
  obtain ⟨f, hf, hfa, hn, -, -⟩ := h12 1 rfl
  have hfeq : f.filename = "a.txt" := by
    simp [sampleStore] at hf
    rw [hf]
  rw [hn, hfeq]

/-- Under unique external identities, a user row resolves to its own internal identity. -/
theorem getPostgresId_of_row (s : Store) (u : User)
    (huniq : (s.users.map (fun x => x.firebase_uid)).Nodup) (hu : u ∈ s.users) :
    getPostgresId s u.firebase_uid = some u.user_id := by
  unfold getPostgresId
  rw [filter_key_eq_singleton (fun x : User => x.firebase_uid) s.users huniq u hu]

/-- The push notification of `send_message` read off the sender and receiver rows. -/
theorem pushFor_rows (s : Store) (d : SendMessageData) (us ur : User)
    (hpk : (s.users.map (fun x => x.user_id)).Nodup) (hus : us ∈ s.users) (hur : ur ∈ s.users)
    (hatt : idOrNull d.attachment_file_id = d.attachment_file_id) :
    pushFor s d us.user_id ur.user_id =
      match ur.fcm_token with
      | none => []
      | some tok =>
        if tok = "" then []
        else
          [{ token := tok,
             title := if us.full_name = "" then "New Message" else us.full_name,
             body :=
               if d.text.getD "" = "" then
                 (if d.attachment_file_id = none then "New Message" else "Sent an attachment")
               else d.text.getD "",
             data_chat_id := toString d.chat_id,
             data_sender_uid := d.sender_firebase_uid }] := by
  have h1 := filter_key_eq_singleton (fun x : User => x.user_id) s.users hpk ur hur
  have h2 := filter_key_eq_singleton (fun x : User => x.user_id) s.users hpk us hus
  unfold pushFor
  simp only [h1, h2, hatt, List.head?_cons, Option.map_some']
  have hb : ((some ur).bind fun a => a.fcm_token) = ur.fcm_token := rfl
  rw [hb]
  generalize ur.fcm_token = t
  cases t with
  | none => rfl
  | some tok =>
    simp only
    by_cases htok : tok = ""
    · simp only [htok, if_true]
    · simp only [htok, if_false]
      have htitle : strOr (some us.full_name) "New Message"
          = (if us.full_name = "" then "New Message" else us.full_name) := rfl
      rw [htitle]
      clear hatt
      generalize d.text = tx
      generalize d.attachment_file_id = ax
      cases tx with
      | none => cases ax <;> simp [strOr]
      | some t =>
        by_cases ht : t = ""
        · cases ax <;> simp [strOr, ht]
        · simp [strOr, ht]

/-- C12, amended: on a users table with unique external identities and unique ids, for a
`send_message` that succeeds (sender row `us` and receiver row `ur` with non-zero ids, text
without U+0000, attachment absent or stored): when the receiver row has a non-empty push token, exactly one
push notification is submitted, to that token, with title the sender display name, or
`New Message` when that name is empty, and body the text, or, when the text is absent or
empty, `Sent an attachment` if an attachment was given and `New Message` otherwise; when the
receiver row has no token, or an empty one, no push notification is submitted. -/
theorem sendMessage_push (s : Store) (d : SendMessageData) (now : Nat) (us ur : User)
    (huniq : (s.users.map (fun x => x.firebase_uid)).Nodup)
    (hpk : (s.users.map (fun x => x.user_id)).Nodup)
    (hus : us ∈ s.users) (hsu : us.firebase_uid = d.sender_firebase_uid) (hsid : us.user_id ≠ 0)
    (hur : ur ∈ s.users) (hru : ur.firebase_uid = d.receiver_firebase_uid)
    (hrid : ur.user_id ≠ 0)
    (htext : pgText (d.text.getD "") = true)
    (hatt : d.attachment_file_id = none ∨
      ∃ f ∈ s.files, f.file_id ≠ 0 ∧ d.attachment_file_id = some f.file_id) :
    (∀ tok, ur.fcm_token = some tok → tok ≠ "" →
      (sendMessage s d now).2.pushed =
        [{ token := tok,
           title := if us.full_name = "" then "New Message" else us.full_name,
           body :=
             if d.text.getD "" = "" then
               (if d.attachment_file_id = none then "New Message" else "Sent an attachment")
             else d.text.getD "",
           data_chat_id := toString d.chat_id,
           data_sender_uid := d.sender_firebase_uid }]) ∧
    (ur.fcm_token = none ∨ ur.fcm_token = some "" → (sendMessage s d now).2.pushed = []) := by
  have hs : getPostgresId s d.sender_firebase_uid = some us.user_id := by
    rw [← hsu]; exact getPostgresId_of_row s us huniq hus
  have hr : getPostgresId s d.receiver_firebase_uid = some ur.user_id := by
    rw [← hru]; exact getPostgresId_of_row s ur huniq hur
  rw [sendMessage_effects s d now us.user_id ur.user_id hs hsid hr hrid htext hatt]
  show (∀ tok, ur.fcm_token = some tok → tok ≠ "" → pushFor s d us.user_id ur.user_id = _) ∧
    (ur.fcm_token = none ∨ ur.fcm_token = some "" → pushFor s d us.user_id ur.user_id = [])
  rw [pushFor_rows s d us ur hpk hus hur (attachment_ok s d.attachment_file_id hatt).1]
  constructor
  · intro tok htok hne
    rw [htok]
    simp only [hne, if_false]
  · rintro (h | h) <;> rw [h]
    · rfl

/-- C12, as stated, fails twice: a message with neither text nor attachment is pushed with the
body `New Message`, which is not its (empty) text; and a sender whose display name is empty is
pushed with the title `New Message`, which is not the display name. -/
theorem push_fallbacks :
    ((sendMessage sampleStore sendEmpty 30).1.messages.map (fun m => m.text) = ["hi", "", ""] ∧
     (sendMessage sampleStore sendEmpty 30).2.pushed.map (fun p => p.body) = ["New Message"]) ∧
    ((namelessStore.users.map (fun u => u.full_name)) = ["", "Bela"] ∧
     (sendMessage namelessStore sendHello 30).2.pushed.map (fun p => p.title)
       = ["New Message"]) := by
  decide

/-- C12 at the sample store: `u1` sends the stored file 1 to `u2`, who has the token `tok2`. -/
theorem sendMessage_push_witness :
    (sendMessage sampleStore sendWithFile 30).2.pushed =
      [{ token := "tok2", title := "Asha", body := "Sent an attachment",
         data_chat_id := toString 1, data_sender_uid := "u1" }] :=
  (sendMessage_push sampleStore sendWithFile 30
    { user_id := 1, firebase_uid := "u1", email := "a@x.org", full_name := "Asha",
      role := "student", status := "active", fcm_token := none }
    { user_id := 2, firebase_uid := "u2", email := "b@x.org", full_name := "Bela",
      role := "instructor", status := "active", fcm_token := some "tok2" }
    (by decide) (by decide) (by decide) rfl (by decide) (by decide) rfl (by decide)
    (by decide) (by decide)).1 "tok2" rfl (by decide)

/-! ## HTTP failures -/

/-- No file row has the id, and the id is in the range of the key: the download query selects
nothing. -/
theorem download_unknown (s : Store) (id : Nat) (hid : id ≤ int4Max)
    (h : ∀ f ∈ s.files, f.file_id ≠ id) :
    download s id = Response.fail 404 (.text "File not found") := by
  unfold download
  have hnil : s.files.filter (fun f => f.file_id = id) = [] := by
    rw [List.filter_eq_nil_iff]
    intro f hf
    simpa using h f hf
  rw [if_neg (not_lt.2 hid), hnil]

/-- `create-or-get` with an unknown participant, both identities free of U+0000. -/
theorem createChat_unknown (s : Store) (a b : String) (now : Nat)
    (ha : pgText a = true) (hb : pgText b = true)
    (h : (∀ x ∈ s.users, x.firebase_uid ≠ a) ∨ (∀ x ∈ s.users, x.firebase_uid ≠ b)) :
    createChat s a b now = (s, Response.fail 404 (.text "Users not found")) := by
  unfold createChat
  rcases h with h | h
  · rw [getPostgresId_eq_none s a h]
    simp only [ha, hb, Bool.and_self, if_true]
  · rw [getPostgresId_eq_none s b h]
    cases getPostgresId s a <;> simp only [ha, hb, Bool.and_self, if_true]

/-- C13, as stated, fails: an external identity that holds U+0000 matches no user row, but the
lookup throws and save-fcm-token answers 500; and the id 2147483648, which no file row has, is
out of the range of `file_id`, the query throws and download answers 500. -/
theorem http_failure_is_500 :
    ((∀ x ∈ sampleStore.users, x.firebase_uid ≠ nulText) ∧
      (saveFcmToken sampleStore nulText (some "tok")).2.status = 500) ∧
    ((∀ f ∈ sampleStore.files, f.file_id ≠ 2147483648) ∧
      (download sampleStore 2147483648).status = 500) := by
  decide

/-- C13, amended: for an external identity that holds no U+0000 and matches no user row,
save-fcm-token answers 404, list-conversations answers 404, create-or-get (either participant
unknown, both free of U+0000) answers 404 and mark-read answers 400; upload without a payload
answers 400; download of an id within the range of `file_id` that no file row has answers
404; and each of the writing handlers returns the store it was given (list-conversations and
download only read it). -/
theorem http_failures_leave_store :
    (∀ (s : Store) (u : String) (t : Option String), pgText u = true →
      (∀ x ∈ s.users, x.firebase_uid ≠ u) →
      (saveFcmToken s u t).2.status = 404 ∧ (saveFcmToken s u t).1 = s) ∧
    (∀ (s : Store) (u : String), pgText u = true → (∀ x ∈ s.users, x.firebase_uid ≠ u) →
      (listChats s u).status = 404) ∧
    (∀ (s : Store) (a b : String) (now : Nat), pgText a = true → pgText b = true →
      (∀ x ∈ s.users, x.firebase_uid ≠ a) ∨ (∀ x ∈ s.users, x.firebase_uid ≠ b) →
      (createChat s a b now).2.status = 404 ∧ (createChat s a b now).1 = s) ∧
    (∀ (s : Store) (c : Nat) (u : String), pgText u = true →
      (∀ x ∈ s.users, x.firebase_uid ≠ u) →
      (markRead s c u).2.status = 400 ∧ (markRead s c u).1 = s) ∧
    (∀ (s : Store) (now : Nat),
      (upload s none now).2.status = 400 ∧ (upload s none now).1 = s) ∧
    (∀ (s : Store) (id : Nat), id ≤ int4Max → (∀ f ∈ s.files, f.file_id ≠ id) →
      (download s id).status = 404) := by
  refine ⟨?_, ?_, ?_, ?_, ?_, ?_⟩
  · intro s u t hu h
    unfold saveFcmToken
    rw [getPostgresId_eq_none s u h]
    simp only
    rw [if_pos hu]
    exact ⟨rfl, rfl⟩
  · intro s u hu h
    unfold listChats
    rw [getPostgresId_eq_none s u h]
    simp only [hu, if_true]
    rfl
  · intro s a b now ha hb h
    rw [createChat_unknown s a b now ha hb h]
    exact ⟨rfl, rfl⟩
  · intro s c u hu h
    unfold markRead
    rw [getPostgresId_eq_none s u h]
    simp only
    rw [if_pos hu]
    exact ⟨rfl, rfl⟩
  · intro s now
    exact ⟨rfl, rfl⟩
  · intro s id hid h
    rw [download_unknown s id hid h]
    rfl

/-- C13 at the sample store: a push token for an unknown identity. -/
theorem http_failures_leave_store_witness :
    (saveFcmToken sampleStore "nobody" (some "tok")).2.status = 404 ∧
    (saveFcmToken sampleStore "nobody" (some "tok")).1 = sampleStore :=
  http_failures_leave_store.1 sampleStore "nobody" (some "tok") (by decide) (by decide)

/-- C14, as stated, fails: mark-read for an identity that matches no user row answers 400, not
a 404-equivalent status; and list-conversations for an unknown identity that holds U+0000 and
download of the unknown id 2147483648 answer 500. -/
theorem markRead_unknown_is_400 :
    (∀ x ∈ sampleStore.users, x.firebase_uid ≠ "nobody") ∧
    (markRead sampleStore 1 "nobody").2.status = 400 ∧
    (markRead sampleStore 1 "nobody").2.status ≠ 404 ∧
    (listChats sampleStore nulText).status = 500 ∧
    (download sampleStore 2147483648).status = 500 := by
  decide

/-- C14, amended: for an external identity that holds no U+0000 and matches no user row,
save-fcm-token, list-conversations and create-or-get answer 404, and download of an unknown
file id within the range of `file_id` answers 404; mark-read answers 400. -/
theorem not_found_statuses :
    (∀ (s : Store) (u : String) (t : Option String), pgText u = true →
      (∀ x ∈ s.users, x.firebase_uid ≠ u) → (saveFcmToken s u t).2.status = 404) ∧
    (∀ (s : Store) (u : String), pgText u = true → (∀ x ∈ s.users, x.firebase_uid ≠ u) →
      (listChats s u).status = 404) ∧
    (∀ (s : Store) (a b : String) (now : Nat), pgText a = true → pgText b = true →
      (∀ x ∈ s.users, x.firebase_uid ≠ a) ∨ (∀ x ∈ s.users, x.firebase_uid ≠ b) →
      (createChat s a b now).2.status = 404) ∧
    (∀ (s : Store) (id : Nat), id ≤ int4Max → (∀ f ∈ s.files, f.file_id ≠ id) →
      (download s id).status = 404) ∧
    (∀ (s : Store) (c : Nat) (u : String), pgText u = true →
      (∀ x ∈ s.users, x.firebase_uid ≠ u) → (markRead s c u).2.status = 400) := by
  refine ⟨?_, ?_, ?_, ?_, ?_⟩
  · intro s u t hu h
    unfold saveFcmToken
    rw [getPostgresId_eq_none s u h]
    simp only [hu, if_true]
    rfl
  · intro s u hu h
    unfold listChats
    rw [getPostgresId_eq_none s u h]
    simp only [hu, if_true]
    rfl
  · intro s a b now ha hb h
    rw [createChat_unknown s a b now ha hb h]
    rfl
  · intro s id hid h
    rw [download_unknown s id hid h]
    rfl
  · intro s c u hu h
    unfold markRead
    rw [getPostgresId_eq_none s u h]
    simp only [hu, if_true]
    rfl

/-- C14 at the sample store: an unknown identity and an unknown file id. -/
theorem not_found_statuses_witness :
    (listChats sampleStore "nobody").status = 404 ∧ (download sampleStore 9).status = 404 :=
  ⟨not_found_statuses.2.1 sampleStore "nobody" (by decide) (by decide),
   not_found_statuses.2.2.2.1 sampleStore 9 (by decide) (by decide)⟩

/-! ## Outcomes of the writing handlers -/

/-- An identity that resolves is the external identity of a row with the resolved id. -/
theorem getPostgresId_some_row (s : Store) (a : String) (i : Nat)
    (h : getPostgresId s a = some i) :
    ∃ u ∈ s.users, u.firebase_uid = a ∧ u.user_id = i := by
  unfold getPostgresId at h
  cases hf : s.users.filter (fun u => u.firebase_uid = a) with
  | nil => rw [hf] at h; simp at h
  | cons u rest =>
    rw [hf] at h
    have hmem : u ∈ s.users.filter (fun u => u.firebase_uid = a) := by rw [hf]; simp
    have hu := List.mem_filter.1 hmem
    exact ⟨u, hu.1, by simpa using hu.2, by simpa using h⟩

/-- What `idOrNull` returns is null or a non-zero id. -/
theorem idOrNull_cases (x : Option Nat) :
    idOrNull x = none ∨ ∃ k, idOrNull x = some (k + 1) := by
  cases x with
  | none => exact Or.inl rfl
  | some a =>
    cases a with
    | zero => exact Or.inl rfl
    | succ k => exact Or.inr ⟨k, rfl⟩

/-- The two outcomes of `send_message`: nothing at all, or one message row appended for
resolved identities and a checked attachment, with the two emissions. -/
theorem sendMessage_cases (s : Store) (d : SendMessageData) (now : Nat) :
    sendMessage s d now = (s, Effects.none) ∨
    ∃ sid rid : Nat,
      getPostgresId s d.sender_firebase_uid = some sid ∧
      getPostgresId s d.receiver_firebase_uid = some rid ∧
      (idOrNull d.attachment_file_id = none ∨
        ∃ f ∈ s.files, f.file_id ≠ 0 ∧ idOrNull d.attachment_file_id = some f.file_id) ∧
      (sendMessage s d now).1 =
        { s with
          messages := s.messages ++
            [{ message_id := s.message_id_seq, chat_id := d.chat_id, sender_id := sid,
               receiver_id := rid, text := strOr d.text "", is_read := false,
               attachment_file_id := idOrNull d.attachment_file_id, created_at := now }],
          message_id_seq := s.message_id_seq + 1 } ∧
      (sendMessage s d now).2.emitted.map (fun e => (e.channel, e.event)) =
        [(Channel.chat d.chat_id, "receive_message"),
         (Channel.user d.receiver_firebase_uid, "new_notification")] := by
  unfold sendMessage
  cases hs : getPostgresId s d.sender_firebase_uid with
  | none => exact Or.inl rfl
  | some sid =>
    cases hr : getPostgresId s d.receiver_firebase_uid with
    | none => exact Or.inl rfl
    | some rid =>
      simp only
      split
      · exact Or.inl rfl
      · split
        · rename_i hok
          have hfk := (Bool.and_eq_true_iff.1 hok).2
          right
          refine ⟨sid, rid, rfl, rfl, ?_, rfl, rfl⟩
          rcases idOrNull_cases d.attachment_file_id with h0 | ⟨k, hk⟩
          · exact Or.inl h0
          · right
            rw [hk] at hfk ⊢
            simp only [Option.all_some, List.any_eq_true, decide_eq_true_eq] at hfk
            obtain ⟨f, hf, hfk2⟩ := hfk
            exact ⟨f, hf, by omega, by rw [hfk2]⟩
        · exact Or.inl rfl

/-- The two outcomes of `create-or-get` on the store: nothing, or one chat row appended for
two resolved identities. -/
theorem createChat_cases (s : Store) (a b : String) (now : Nat) :
    (createChat s a b now).1 = s ∨
    ∃ sid iid : Nat, getPostgresId s a = some sid ∧ getPostgresId s b = some iid ∧
      (createChat s a b now).1 =
        { s with
          chats := s.chats ++ [{ chat_id := s.chat_id_seq, student_id := sid,
                                 instructor_id := iid, created_at := now }],
          chat_id_seq := s.chat_id_seq + 1 } := by
  unfold createChat
  cases hs : getPostgresId s a with
  | none =>
    simp only
    split <;> exact Or.inl rfl
  | some sid =>
    cases hr : getPostgresId s b with
    | none =>
      simp only
      split <;> exact Or.inl rfl
    | some iid =>
      simp only
      split
      · exact Or.inl rfl
      · split
        · exact Or.inl rfl
        · exact Or.inr ⟨sid, iid, rfl, rfl, rfl⟩

/-- The two outcomes of `mark-read` on the store: nothing, or the update for a resolved id. -/
theorem markRead_cases (s : Store) (c : Nat) (u : String) :
    (markRead s c u).1 = s ∨
    ∃ i : Nat, (markRead s c u).1 = { s with messages := markReadRows s.messages c i } := by
  unfold markRead
  cases getPostgresId s u with
  | none =>
    simp only
    split <;> exact Or.inl rfl
  | some i =>
    cases i with
    | zero => exact Or.inl rfl
    | succ k => exact Or.inr ⟨k + 1, rfl⟩

/-- A row after the mark-read update is a row from before, up to `is_read`. -/
theorem mem_markReadRows (ms : List Message) (c i : Nat) (m : Message)
    (h : m ∈ markReadRows ms c i) :
    ∃ m0 ∈ ms, m = { m0 with is_read := m.is_read } := by
  unfold markReadRows at h
  obtain ⟨m0, hm0, rfl⟩ := List.mem_map.1 h
  refine ⟨m0, hm0, ?_⟩
  split <;> rfl

/-! ## References between tables in reachable states -/

/-- A rewrite of user rows that keeps the ids keeps every reference to a user. -/
theorem exists_user_map (us : List User) (f : User → User)
    (hf : ∀ x, (f x).firebase_uid = x.firebase_uid ∧ (f x).user_id = x.user_id) (i : Nat)
    (h : ∃ u ∈ us, u.user_id = i) : ∃ u ∈ us.map f, u.user_id = i := by
  obtain ⟨u, hu, hi⟩ := h
  exact ⟨f u, List.mem_map_of_mem f hu, by rw [(hf u).2, hi]⟩

/-- The references survive a change of the users table that keeps every referenced id. -/
theorem refsOk_users (s : Store) (us : List User) (k : Nat)
    (hus : ∀ i, (∃ u ∈ s.users, u.user_id = i) → ∃ u ∈ us, u.user_id = i)
    (h : RefsOk s) : RefsOk { s with users := us, user_id_seq := k } :=
  ⟨fun m hm => hus _ (h.msg_sender m hm), h.msg_attachment,
   fun c hc => hus _ (h.chat_student c hc), fun c hc => hus _ (h.chat_instructor c hc)⟩

/-- One request keeps the references between tables. -/
theorem refsOk_step (s : Store) (op : Op) (h : RefsOk s) : RefsOk (step s op) := by
  cases op with
  | syncUser u e n r =>
    show RefsOk (syncUser s u e n r).1
    rcases syncUser_store s u e n r with ⟨f, hf, heq⟩ | ⟨row, -, -, -, heq⟩
    · rw [heq]
      exact refsOk_users s _ s.user_id_seq (fun i hi => exists_user_map s.users f hf i hi) h
    · rw [heq]
      refine refsOk_users s _ _ ?_ h
      rintro i ⟨x, hx, hxi⟩
      exact ⟨x, List.mem_append_left _ hx, hxi⟩
  | saveFcmToken u t =>
    show RefsOk (saveFcmToken s u t).1
    obtain ⟨f, hf, heq⟩ := saveFcmToken_store s u t
    rw [heq]
    exact refsOk_users s _ s.user_id_seq (fun i hi => exists_user_map s.users f hf i hi) h
  | upload f now =>
    show RefsOk (upload s f now).1
    rcases upload_store s f now with heq | ⟨row, -, heq⟩
    · rw [heq]; exact h
    · rw [heq]
      refine ⟨h.msg_sender, ?_, h.chat_student, h.chat_instructor⟩
      intro m hm
      rcases h.msg_attachment m hm with h0 | ⟨g, hg, hne, hga⟩
      · exact Or.inl h0
      · exact Or.inr ⟨g, List.mem_append_left _ hg, hne, hga⟩
  | download _ => exact h
  | listChats _ => exact h
  | createChat a b now =>
    show RefsOk (createChat s a b now).1
    rcases createChat_cases s a b now with heq | ⟨sid, iid, hs, hi, heq⟩
    · rw [heq]; exact h
    · rw [heq]
      obtain ⟨us, hus, -, husid⟩ := getPostgresId_some_row s a sid hs
      obtain ⟨ui, hui, -, huiid⟩ := getPostgresId_some_row s b iid hi
      refine ⟨h.msg_sender, h.msg_attachment, ?_, ?_⟩
      · intro c hc
        rcases List.mem_append.1 hc with hc | hc
        · exact h.chat_student c hc
        · simp only [List.mem_singleton] at hc
          subst hc
          exact ⟨us, hus, husid⟩
      · intro c hc
        rcases List.mem_append.1 hc with hc | hc
        · exact h.chat_instructor c hc
        · simp only [List.mem_singleton] at hc
          subst hc
          exact ⟨ui, hui, huiid⟩
  | getMessages _ => exact h
  | markRead c u =>
    show RefsOk (markRead s c u).1
    rcases markRead_cases s c u with heq | ⟨i, heq⟩
    · rw [heq]; exact h
    · rw [heq]
      refine ⟨?_, ?_, h.chat_student, h.chat_instructor⟩
      · intro m hm
        obtain ⟨m0, hm0, hmeq⟩ := mem_markReadRows s.messages c i m hm
        have := h.msg_sender m0 hm0
        rw [hmeq]
        exact this
      · intro m hm
        obtain ⟨m0, hm0, hmeq⟩ := mem_markReadRows s.messages c i m hm
        have := h.msg_attachment m0 hm0
        rw [hmeq]
        exact this
  | sendMessage d now =>
    show RefsOk (sendMessage s d now).1
    rcases sendMessage_cases s d now with heq | ⟨sid, rid, hs, -, hatt, heq, -⟩
    · rw [heq]; exact h
    · rw [heq]
      obtain ⟨us, hus, -, husid⟩ := getPostgresId_some_row s _ sid hs
      refine ⟨?_, ?_, h.chat_student, h.chat_instructor⟩
      · intro m hm
        rcases List.mem_append.1 hm with hm | hm
        · exact h.msg_sender m hm
        · simp only [List.mem_singleton] at hm
          subst hm
          exact ⟨us, hus, husid⟩
      · intro m hm
        rcases List.mem_append.1 hm with hm | hm
        · exact h.msg_attachment m hm
        · simp only [List.mem_singleton] at hm
          subst hm
          exact hatt

/-- Every reachable state has the references between tables. -/
theorem reachable_refsOk (s : Store) (h : Reachable s) : RefsOk s := by
  induction h with
  | init =>
    exact ⟨by simp [Store.empty], by simp [Store.empty], by simp [Store.empty],
      by simp [Store.empty]⟩
  | next s op _ ih => exact refsOk_step s op ih

/-- A sequence of requests leads from a reachable state to a reachable state. -/
theorem reachable_run (ops : List Op) : ∀ s : Store, Reachable s → Reachable (run s ops) := by
  induction ops with
  | nil => intro s h; exact h
  | cons op ops ih => intro s h; exact ih (step s op) (Reachable.next s op h)

/-- C15, as stated, fails: after two user syncs and one `send_message` with neither text nor
attachment, the reachable store holds a message with empty text and a null attachment
reference. -/
theorem reachable_empty_text_no_attachment :
    Reachable (run Store.empty emptyTextOps) ∧
    ∃ m ∈ (run Store.empty emptyTextOps).messages,
      m.text = "" ∧ m.attachment_file_id = none :=
  ⟨reachable_run emptyTextOps Store.empty Reachable.init, by decide⟩

/-- C15, amended: in every state reachable from the empty store, the attachment reference of
every message row is null or the non-zero id of a stored file row (the text is not
constrained by it). -/
theorem reachable_attachment_stored (s : Store) (h : Reachable s) :
    ∀ m ∈ s.messages, m.attachment_file_id = none ∨
      ∃ f ∈ s.files, f.file_id ≠ 0 ∧ m.attachment_file_id = some f.file_id :=
  (reachable_refsOk s h).msg_attachment

/-- C15 at the store reached by two syncs, an upload and a `send_message` that attaches the
uploaded file: the reference of the message names a stored file. -/
theorem reachable_attachment_stored_witness :
    ∃ f ∈ (run Store.empty attachOps).files,
      f.file_id ≠ 0 ∧ (some 1 : Option Nat) = some f.file_id := by
  have h := reachable_attachment_stored (run Store.empty attachOps)
    (reachable_run attachOps Store.empty Reachable.init)
    { message_id := 1, chat_id := 1, sender_id := 1, receiver_id := 2, text := "",
      is_read := false, attachment_file_id := some 1, created_at := 5 } (by decide)
  rcases h with h | h
  · exact absurd h (by decide)
  · exact h

/-! ## Message rows along requests -/

/-- A message row compared with itself: nothing changed. -/
theorem forall₂_messages_refl (ms : List Message) :
    List.Forall₂ (fun m m2 : Message =>
      m2 = { m with is_read := m2.is_read } ∧ (m.is_read = true → m2.is_read = true)) ms ms :=
  List.forall₂_same.2 (fun _ _ => ⟨rfl, id⟩)

/-- The mark-read update keeps every column but `is_read`, and only sets `is_read`. -/
theorem forall₂_markReadRows (ms : List Message) (c i : Nat) :
    List.Forall₂ (fun m m2 : Message =>
      m2 = { m with is_read := m2.is_read } ∧ (m.is_read = true → m2.is_read = true))
      ms (markReadRows ms c i) := by
  unfold markReadRows
  rw [List.forall₂_map_right_iff]
  apply List.forall₂_same.2
  intro m _
  split
  · exact ⟨rfl, fun _ => rfl⟩
  · exact ⟨rfl, id⟩

/-- What one request does to the messages: the rows from before, changed at most in
`is_read` and only towards `true`, followed by the rows it adds. -/
theorem step_messages (s : Store) (op : Op) :
    ∃ kept added : List Message, (step s op).messages = kept ++ added ∧
      List.Forall₂ (fun m m2 : Message =>
        m2 = { m with is_read := m2.is_read } ∧ (m.is_read = true → m2.is_read = true))
        s.messages kept := by
  cases op with
  | syncUser u e n r =>
    exact ⟨s.messages, [], by simp [step, (syncUser_frame s u e n r).2.1],
      forall₂_messages_refl _⟩
  | saveFcmToken u t =>
    exact ⟨s.messages, [], by simp [step, (saveFcmToken_frame s u t).2.1],
      forall₂_messages_refl _⟩
  | upload f now =>
    exact ⟨s.messages, [], by simp [step, (upload_frame s f now).2.2],
      forall₂_messages_refl _⟩
  | download _ => exact ⟨s.messages, [], by simp [step], forall₂_messages_refl _⟩
  | listChats _ => exact ⟨s.messages, [], by simp [step], forall₂_messages_refl _⟩
  | createChat a b now =>
    exact ⟨s.messages, [], by simp [step, (createChat_frame s a b now).2.1],
      forall₂_messages_refl _⟩
  | getMessages _ => exact ⟨s.messages, [], by simp [step], forall₂_messages_refl _⟩
  | markRead c u =>
    show ∃ kept added : List Message, (markRead s c u).1.messages = kept ++ added ∧ _
    rcases markRead_cases s c u with heq | ⟨i, heq⟩
    · rw [heq]
      exact ⟨s.messages, [], by simp, forall₂_messages_refl _⟩
    · rw [heq]
      exact ⟨markReadRows s.messages c i, [], by simp, forall₂_markReadRows _ c i⟩
  | sendMessage d now =>
    show ∃ kept added : List Message, (sendMessage s d now).1.messages = kept ++ added ∧ _
    rcases sendMessage_cases s d now with heq | ⟨sid, rid, -, -, -, heq, -⟩
    · rw [heq]
      exact ⟨s.messages, [], by simp, forall₂_messages_refl _⟩
    · rw [heq]
      exact ⟨s.messages, _, rfl, forall₂_messages_refl _⟩

/-- C16: after any single request the messages are the rows from before, each with the same
id, chat, sender, receiver, text, attachment reference and creation time and with `is_read`
unchanged or turned from `false` to `true`, followed by the rows the request added; the bulk
read-repair of `fix_read.js` keeps every row in the same way and leaves every `is_read`
`true`. -/
theorem messages_immutable_read_monotone :
    (∀ (s : Store) (op : Op), ∃ kept added : List Message,
      (step s op).messages = kept ++ added ∧
      List.Forall₂ (fun m m2 : Message =>
        m2 = { m with is_read := m2.is_read } ∧ (m.is_read = true → m2.is_read = true))
        s.messages kept) ∧
    (∀ s : Store,
      List.Forall₂ (fun m m2 : Message =>
        m2 = { m with is_read := m2.is_read } ∧ (m.is_read = true → m2.is_read = true))
        s.messages (fixReadStatus s).messages ∧
      ∀ m ∈ (fixReadStatus s).messages, m.is_read = true) := by
  refine ⟨step_messages, ?_⟩
  intro s
  constructor
  · show List.Forall₂ _ s.messages (s.messages.map _)
    rw [List.forall₂_map_right_iff]
    exact List.forall₂_same.2 (fun _ _ => ⟨rfl, fun _ => rfl⟩)
  · intro m hm
    obtain ⟨m0, -, rfl⟩ := List.mem_map.1 hm
    rfl

/-- C16 at the sample store: the bulk read-repair. -/
theorem messages_immutable_read_monotone_witness :
    (fixReadStatus sampleStore).messages.map (fun m => m.is_read) = [true, true] ∧
    ∀ m ∈ (fixReadStatus sampleStore).messages, m.is_read = true :=
  ⟨by decide, (messages_immutable_read_monotone.2 sampleStore).2⟩

/-- C19, as stated, fails: chat 1 is the chat of the users 1 and 2, the user `u3` (id 3) is
in no chat, and a `send_message` of `u3` for chat 1 persists a message of chat 1 with
sender 3. -/
theorem sendMessage_outsider :
    getPostgresId outsiderStore "u3" = some 3 ∧
    outsiderStore.chats = [{ chat_id := 1, student_id := 1, instructor_id := 2,
                             created_at := 10 }] ∧
    (sendMessage outsiderStore sendOutsider 30).1.messages =
      outsiderStore.messages ++
        [{ message_id := 3, chat_id := 1, sender_id := 3, receiver_id := 2, text := "psst",
           is_read := false, attachment_file_id := none, created_at := 30 }] := by
  decide

/-- C19, amended: whenever `send_message` persists a message, its sender and receiver are the
internal identities of user rows with the sender and receiver external identities of the
input, its chat is the chat id of the input (no membership in that chat is checked), and the
emissions go to the channel of that chat id and, for `new_notification`, to the channel of
the receiver external identity. -/
theorem sendMessage_persists_for_users (s : Store) (d : SendMessageData) (now : Nat)
    (hp : (sendMessage s d now).1.messages ≠ s.messages) :
    ∃ us ∈ s.users, ∃ ur ∈ s.users, ∃ m : Message,
      us.firebase_uid = d.sender_firebase_uid ∧ ur.firebase_uid = d.receiver_firebase_uid ∧
      (sendMessage s d now).1.messages = s.messages ++ [m] ∧
      m.chat_id = d.chat_id ∧ m.sender_id = us.user_id ∧ m.receiver_id = ur.user_id ∧
      (sendMessage s d now).2.emitted.map (fun e => (e.channel, e.event)) =
        [(Channel.chat d.chat_id, "receive_message"),
         (Channel.user d.receiver_firebase_uid, "new_notification")] := by
  rcases sendMessage_cases s d now with heq | ⟨sid, rid, hs, hr, -, heq, hem⟩
  · rw [heq] at hp
    exact absurd rfl hp
  · obtain ⟨us, hus, hsu, hsid⟩ := getPostgresId_some_row s _ sid hs
    obtain ⟨ur, hur, hru, hrid⟩ := getPostgresId_some_row s _ rid hr
    refine ⟨us, hus, ur, hur,
      { message_id := s.message_id_seq, chat_id := d.chat_id, sender_id := sid,
        receiver_id := rid, text := strOr d.text "", is_read := false,
        attachment_file_id := idOrNull d.attachment_file_id, created_at := now },
      hsu, hru, ?_, rfl, hsid.symm, hrid.symm, hem⟩
    rw [heq]

/-- C19 at the store with the outsider `u3`. -/
theorem sendMessage_persists_for_users_witness :
    ∃ us ∈ outsiderStore.users, ∃ ur ∈ outsiderStore.users, ∃ m : Message,
      us.firebase_uid = "u3" ∧ ur.firebase_uid = "u2" ∧
      (sendMessage outsiderStore sendOutsider 30).1.messages = outsiderStore.messages ++ [m] ∧
      m.chat_id = 1 ∧ m.sender_id = us.user_id ∧ m.receiver_id = ur.user_id ∧
      (sendMessage outsiderStore sendOutsider 30).2.emitted.map (fun e => (e.channel, e.event)) =
        [(Channel.chat 1, "receive_message"), (Channel.user "u2", "new_notification")] :=
  sendMessage_persists_for_users outsiderStore sendOutsider 30 (by decide)

/-! ## The read handlers as joins -/

/-- A join that yields exactly one row per row of the left table lists the left table. -/
theorem flatMap_map_fst {α β : Type} (l : List α) (g : α → List (α × β))
    (h : ∀ a ∈ l, ∃ b, g a = [(a, b)]) : (l.flatMap g).map Prod.fst = l := by
  induction l with
  | nil => rfl
  | cons a l ih =>
    obtain ⟨b, hb⟩ := h a (List.mem_cons_self a l)
    rw [List.flatMap_cons, List.map_append, hb,
      ih (fun x hx => h x (List.mem_cons_of_mem a hx))]
    rfl

/-- What the left join with `files` yields for a message: `none` when no file row has the
referenced id, otherwise a file row with that id. -/
theorem mem_leftJoinFiles (s : Store) (m : Message) (f : Option File)
    (h : f ∈ leftJoinFiles s m) :
    (f = none ∧ ∀ g ∈ s.files, m.attachment_file_id ≠ some g.file_id) ∨
    ∃ g ∈ s.files, f = some g ∧ m.attachment_file_id = some g.file_id := by
  unfold leftJoinFiles at h
  cases hf : s.files.filter (fun g => m.attachment_file_id = some g.file_id) with
  | nil =>
    rw [hf] at h
    left
    refine ⟨by simpa using h, ?_⟩
    rw [List.filter_eq_nil_iff] at hf
    intro g hg
    simpa using hf g hg
  | cons x rest =>
    rw [hf] at h
    right
    obtain ⟨g, hg, rfl⟩ := List.mem_map.1 h
    rw [← hf] at hg
    have := List.mem_filter.1 hg
    exact ⟨g, this.1, rfl, by simpa using this.2⟩

/-- The rows of the history join: a message, a user row with the sender id, and the file of
the left join. -/
theorem mem_messageJoin (s : Store) (row : Message × User × Option File)
    (h : row ∈ messageJoin s) :
    row.1 ∈ s.messages ∧ row.2.1 ∈ s.users ∧ row.2.1.user_id = row.1.sender_id ∧
      row.2.2 ∈ leftJoinFiles s row.1 := by
  unfold messageJoin at h
  obtain ⟨m, hm, h2⟩ := List.mem_flatMap.1 h
  obtain ⟨u, hu, h3⟩ := List.mem_flatMap.1 h2
  obtain ⟨f, hf, rfl⟩ := List.mem_map.1 h3
  have hu2 := List.mem_filter.1 hu
  exact ⟨hm, hu2.1, by simpa [eq_comm] using hu2.2, hf⟩

/-- Under the keys and references, the history join has exactly one row per message. -/
theorem messageJoin_map_fst (s : Store)
    (hpk : (s.users.map (fun x => x.user_id)).Nodup)
    (hfk : (s.files.map (fun f => f.file_id)).Nodup)
    (hsender : ∀ m ∈ s.messages, ∃ u ∈ s.users, u.user_id = m.sender_id) :
    (messageJoin s).map Prod.fst = s.messages := by
  unfold messageJoin
  apply flatMap_map_fst
  intro m hm
  obtain ⟨u, hu, hid⟩ := hsender m hm
  have hfil : s.users.filter (fun x => m.sender_id = x.user_id) = [u] := by
    rw [← filter_key_eq_singleton (fun x : User => x.user_id) s.users hpk u hu]
    apply List.filter_congr
    intro x _
    simp [hid, eq_comm]
  obtain ⟨f, hf⟩ := join_new_message s m u hfil hfk
  exact ⟨(u, f), hf⟩

/-- C17: on a store with the keys of `users` and `files` and the references of `messages`
(every sender is a user row, every attachment reference is null or the non-zero id of a file
row), fetch-history of chat `c` answers with records that correspond one to one, in order, to
the message rows of chat `c` (each once, none of another chat) sorted by creation time
ascending; each record carries the columns of its message, the external identity of the
sender row, and for an attachment the URL ending in the attachment id with the filename and
MIME type of the referenced file, or null for all three without an attachment. -/
theorem getMessages_history (s : Store) (c : Nat)
    (hpk : (s.users.map (fun x => x.user_id)).Nodup)
    (hfk : (s.files.map (fun f => f.file_id)).Nodup)
    (hsender : ∀ m ∈ s.messages, ∃ u ∈ s.users, u.user_id = m.sender_id)
    (hatt : ∀ m ∈ s.messages, m.attachment_file_id = none ∨
      ∃ f ∈ s.files, f.file_id ≠ 0 ∧ m.attachment_file_id = some f.file_id) :
    ∃ (ms : List Message) (rs : List MessageRecord),
      getMessages s c = Response.ok (.messageList rs) ∧
      ms.Perm (s.messages.filter (fun m => m.chat_id = c)) ∧
      ms.Sorted (fun a b => a.created_at ≤ b.created_at) ∧
      List.Forall₂ (fun (m : Message) (r : MessageRecord) =>
        r.message_id = m.message_id ∧ r.text = m.text ∧ r.created_at = m.created_at ∧
        r.is_read = m.is_read ∧ r.attachment_file_id = m.attachment_file_id ∧
        (∃ u ∈ s.users, u.user_id = m.sender_id ∧ r.sender_uid = u.firebase_uid) ∧
        (m.attachment_file_id = none →
          r.attachment_url = none ∧ r.attachment_name = none ∧ r.attachment_type = none) ∧
        (∀ a, m.attachment_file_id = some a →
          r.attachment_url = some (fileUrlBase ++ toString a) ∧
          ∃ f ∈ s.files, f.file_id = a ∧ r.attachment_name = some f.filename ∧
            r.attachment_type = some f.mime_type)) ms rs := by
  refine ⟨(((messageJoin s).filter (fun row => row.1.chat_id = c)).insertionSort
      (fun a b => a.1.created_at ≤ b.1.created_at)).map Prod.fst,
    messageRows s c, rfl, ?_, ?_, ?_⟩
  · refine ((List.perm_insertionSort _ _).map Prod.fst).trans ?_
    have hmf : ((messageJoin s).filter (fun row => row.1.chat_id = c)).map Prod.fst
        = ((messageJoin s).map Prod.fst).filter (fun m => m.chat_id = c) := by
      rw [List.filter_map]
      rfl
    rw [hmf, messageJoin_map_fst s hpk hfk hsender]
  · have hs := @List.sorted_insertionSort (Message × User × Option File)
      (fun a b => a.1.created_at ≤ b.1.created_at) _
      ⟨fun a b => Nat.le_total a.1.created_at b.1.created_at⟩
      ⟨fun _ _ _ h1 h2 => Nat.le_trans h1 h2⟩
      ((messageJoin s).filter (fun row => row.1.chat_id = c))
    exact List.pairwise_map.2 hs
  · unfold messageRows
    rw [List.forall₂_map_left_iff, List.forall₂_map_right_iff]
    apply List.forall₂_same.2
    intro row hrow
    have hj : row ∈ messageJoin s :=
      (List.mem_filter.1 ((List.mem_insertionSort _).1 hrow)).1
    obtain ⟨hm, hu, hid, hf⟩ := mem_messageJoin s row hj
    refine ⟨rfl, rfl, rfl, rfl, rfl, ⟨row.2.1, hu, hid, rfl⟩, ?_, ?_⟩
    · intro hnone
      rcases mem_leftJoinFiles s row.1 row.2.2 hf with ⟨h0, -⟩ | ⟨g, -, -, hga⟩
      · simp [messageRecord, hnone, h0, idOrNull]
      · rw [hnone] at hga
        simp at hga
    · intro a ha
      rcases hatt row.1 hm with h0 | ⟨g0, hg0, hne, hg0a⟩
      · rw [h0] at ha
        simp at ha
      · have hag : g0.file_id = a := by
          rw [hg0a] at ha
          simpa using ha
        obtain ⟨k, hk⟩ := Nat.exists_eq_succ_of_ne_zero (hag ▸ hne)
        rcases mem_leftJoinFiles s row.1 row.2.2 hf with ⟨-, hno⟩ | ⟨g, hg, hfg, hga⟩
        · exact absurd hg0a (hno g0 hg0)
        · have hga2 : g.file_id = a := by
            rw [hga] at ha
            simpa using ha
          refine ⟨?_, g, hg, hga2, ?_, ?_⟩
          · simp only [messageRecord, ha, hk, idOrNull, Option.map_some', fileUrl]
          · simp [messageRecord, hfg]
          · simp [messageRecord, hfg]

/-- C17 at the sample store: the history of chat 1. -/
theorem getMessages_history_witness :
    ∃ (ms : List Message) (rs : List MessageRecord),
      getMessages sampleStore 1 = Response.ok (.messageList rs) ∧
      ms.Perm (sampleStore.messages.filter (fun m => m.chat_id = 1)) ∧
      ms.Sorted (fun a b => a.created_at ≤ b.created_at) ∧ ms.length = rs.length := by
  obtain ⟨ms, rs, h1, h2, h3, h4⟩ :=
    getMessages_history sampleStore 1 (by decide) (by decide) (by decide) (by decide)
  exact ⟨ms, rs, h1, h2, h3, h4.length_eq⟩

/-- The rows of the conversation join: a chat, a user row with its student id and a user row
with its instructor id. -/
theorem mem_chatJoin (s : Store) (row : Chat × User × User) (h : row ∈ chatJoin s) :
    row.1 ∈ s.chats ∧ row.2.1 ∈ s.users ∧ row.2.1.user_id = row.1.student_id ∧
      row.2.2 ∈ s.users ∧ row.2.2.user_id = row.1.instructor_id := by
  unfold chatJoin at h
  obtain ⟨c, hc, h2⟩ := List.mem_flatMap.1 h
  obtain ⟨st, hst, h3⟩ := List.mem_flatMap.1 h2
  obtain ⟨i, hi, rfl⟩ := List.mem_map.1 h3
  have hst2 := List.mem_filter.1 hst
  have hi2 := List.mem_filter.1 hi
  exact ⟨hc, hst2.1, by simpa [eq_comm] using hst2.2, hi2.1, by simpa [eq_comm] using hi2.2⟩

/-- Under the key of `users`, the rows selected by an id that a row has are that row. -/
theorem filter_user_id (s : Store) (hpk : (s.users.map (fun x => x.user_id)).Nodup)
    (i : Nat) (h : ∃ u ∈ s.users, u.user_id = i) :
    ∃ u, s.users.filter (fun x => i = x.user_id) = [u] := by
  obtain ⟨u, hu, hid⟩ := h
  refine ⟨u, ?_⟩
  rw [← filter_key_eq_singleton (fun x : User => x.user_id) s.users hpk u hu]
  apply List.filter_congr
  intro x _
  simp [hid, eq_comm]

/-- Under the key and references, the conversation join has exactly one row per chat. -/
theorem chatJoin_map_fst (s : Store)
    (hpk : (s.users.map (fun x => x.user_id)).Nodup)
    (hstudent : ∀ c ∈ s.chats, ∃ u ∈ s.users, u.user_id = c.student_id)
    (hinstructor : ∀ c ∈ s.chats, ∃ u ∈ s.users, u.user_id = c.instructor_id) :
    (chatJoin s).map Prod.fst = s.chats := by
  unfold chatJoin
  apply flatMap_map_fst
  intro c hc
  obtain ⟨st, hst⟩ := filter_user_id s hpk c.student_id (hstudent c hc)
  obtain ⟨i, hi⟩ := filter_user_id s hpk c.instructor_id (hinstructor c hc)
  refine ⟨(st, i), ?_⟩
  rw [hst, hi]
  rfl

/-- The conversation list is the sorted join, summarised row by row. -/
theorem chatRows_eq (s : Store) (userId : Nat) :
    chatRows s userId =
      (((chatJoin s).filter (fun row =>
          row.1.student_id = userId ∨ row.1.instructor_id = userId)).insertionSort
        (fun a b => b.1.created_at ≤ a.1.created_at)).map (chatSummary s userId) := by
  unfold chatRows
  rw [List.map_insertionSort (fun a b : Chat × User × User => b.1.created_at ≤ a.1.created_at)
    (fun a b : ChatSummary => b.created_at ≤ a.created_at)]
  intro a _ b _
  exact Iff.rfl

/-- C18: on a store with the key of `users` in which both participants of every chat are user
rows, list-conversations for a known user `u` with internal identity `i` (a key, hence
non-zero) answers with entries that correspond one to one, in order, to the chat rows whose
student or instructor is `i` (each once) sorted by creation time descending; each entry has
the display name and external identity of the other participant: the instructor row when `i`
is the student of the chat, otherwise the student row. -/
theorem listChats_rows (s : Store) (u : String) (i : Nat)
    (hres : getPostgresId s u = some i) (hi : i ≠ 0)
    (hpk : (s.users.map (fun x => x.user_id)).Nodup)
    (hstudent : ∀ c ∈ s.chats, ∃ x ∈ s.users, x.user_id = c.student_id)
    (hinstructor : ∀ c ∈ s.chats, ∃ x ∈ s.users, x.user_id = c.instructor_id) :
    ∃ (cs : List Chat) (rows : List ChatSummary),
      listChats s u = Response.ok (.chatList rows) ∧
      cs.Perm (s.chats.filter (fun c => c.student_id = i ∨ c.instructor_id = i)) ∧
      cs.Sorted (fun a b => b.created_at ≤ a.created_at) ∧
      List.Forall₂ (fun (c : Chat) (r : ChatSummary) =>
        r.chat_id = c.chat_id ∧ r.created_at = c.created_at ∧
        ∃ other ∈ s.users,
          other.user_id = (if c.student_id = i then c.instructor_id else c.student_id) ∧
          r.recipient_name = other.full_name ∧ r.recipient_uid = other.firebase_uid)
        cs rows := by
  have hl : listChats s u = Response.ok (.chatList (chatRows s i)) := by
    unfold listChats
    rw [hres]
    cases i with
    | zero => exact absurd rfl hi
    | succ k => rfl
  refine ⟨(((chatJoin s).filter (fun row =>
      row.1.student_id = i ∨ row.1.instructor_id = i)).insertionSort
        (fun a b => b.1.created_at ≤ a.1.created_at)).map Prod.fst,
    chatRows s i, hl, ?_, ?_, ?_⟩
  · refine ((List.perm_insertionSort _ _).map Prod.fst).trans ?_
    have hmf : ((chatJoin s).filter (fun row =>
        row.1.student_id = i ∨ row.1.instructor_id = i)).map Prod.fst
        = ((chatJoin s).map Prod.fst).filter
            (fun c => c.student_id = i ∨ c.instructor_id = i) := by
      rw [List.filter_map]
      rfl
    rw [hmf, chatJoin_map_fst s hpk hstudent hinstructor]
  · have hs := @List.sorted_insertionSort (Chat × User × User)
      (fun a b => b.1.created_at ≤ a.1.created_at) _
      ⟨fun a b => Nat.le_total b.1.created_at a.1.created_at⟩
      ⟨fun _ _ _ h1 h2 => Nat.le_trans h2 h1⟩
      ((chatJoin s).filter (fun row => row.1.student_id = i ∨ row.1.instructor_id = i))
    exact List.pairwise_map.2 hs
  · rw [chatRows_eq, List.forall₂_map_left_iff, List.forall₂_map_right_iff]
    apply List.forall₂_same.2
    intro row hrow
    have hj : row ∈ chatJoin s :=
      (List.mem_filter.1 ((List.mem_insertionSort _).1 hrow)).1
    obtain ⟨-, hst, hstid, hin, hinid⟩ := mem_chatJoin s row hj
    refine ⟨rfl, rfl, ?_⟩
    by_cases hc : row.1.student_id = i
    · exact ⟨row.2.2, hin, by simp [hc, hinid], by simp [chatSummary, hc],
        by simp [chatSummary, hc]⟩
    · exact ⟨row.2.1, hst, by simp [hc, hstid], by simp [chatSummary, hc],
        by simp [chatSummary, hc]⟩

/-- C18 at the sample store: the conversations of `u2`. -/
theorem listChats_rows_witness :
    ∃ (cs : List Chat) (rows : List ChatSummary),
      listChats sampleStore "u2" = Response.ok (.chatList rows) ∧
      cs.Perm (sampleStore.chats.filter (fun c => c.student_id = 2 ∨ c.instructor_id = 2)) ∧
      cs.Sorted (fun a b => b.created_at ≤ a.created_at) ∧ cs.length = rows.length := by
  obtain ⟨cs, rows, h1, h2, h3, h4⟩ :=
    listChats_rows sampleStore "u2" 2 (by decide) (by decide) (by decide) (by decide)
      (by decide)
  exact ⟨cs, rows, h1, h2, h3, h4.length_eq⟩

end ChatServer
